import Mathlib

/-!
Shallow embedding of the Ari tree-walking interpreter
(crates `ari_parser` / `ari_errors`), restricted to the evaluator:
the value model (`Literal`), the expression / statement AST, the
environment stack (`EnvManager`), the evaluation functions of
`ast.rs`, the user/native call protocol of `function.rs`, and the
built-ins the claims touch (`map`, `filter`, `split`, `repeat`,
`range`).

Modelling conventions:
* `Number` payloads are modelled as exact rationals `Rat`; the Rust
  code stores each number's decimal string and re-parses it as `f32`
  for every operation.  The claims under scrutiny only involve small
  integral values, on which `f32` arithmetic is exact, so the
  rational model is faithful there.  `v as i32` truncation toward
  zero is modelled by `ratTrunc`.
* every `print_error` / `print_custom_error` call terminates the Rust
  process (`ari_errors::print_custom_error` ends in `exit()`); this is
  modelled as the result `Err.fatal msg`.  `panic!` and `unwrap()` on a
  missing value are modelled as `Err.panicErr`.  `bai`'s clean exit is
  `Err.exitProg`.
* the Rust evaluator recurses without bound (`loop` in `While` and in
  `range`, recursion through user function calls); the embedding
  threads a fuel counter and returns `Err.noFuel` when it runs out, so
  divergence of the source corresponds to `Err.noFuel` for every fuel.
* built-ins whose behaviour rests on floating point, randomness or
  I/O (`power`, `log`, `random_choose`, `read_file`, ...) are not
  needed by any claim; calling them yields the marker result
  `Err.unmodelled` rather than a guessed semantics.
-/

namespace Ari

/-- `ast.rs` `LiteralType`: the tag of a runtime value. -/
inductive LType where
  | None
  | Number
  | String
  | Bool
  | Null
  | Array
  | Function
  | Break
  | Continue
deriving DecidableEq, Repr

/-- `token.rs` `TokenType`, restricted to the operator tokens that an
`Expr.operator` field is consulted for during evaluation, plus a
placeholder mirroring `TokenType::None`. -/
inductive TokenType where
  | Minus
  | Plus
  | Slash
  | Star
  | Bang
  | BangEqual
  | EqualEqual
  | Greater
  | GreaterEqual
  | Less
  | LessEqual
  | And
  | Or
  | NoneT
deriving DecidableEq, Repr

/-- `function.rs` `FunctionType`. -/
inductive FType where
  | UserDefined
  | Native
  | NoneF
deriving DecidableEq, Repr

/-- `function.rs` `NativeType`: the tags of the built-in functions. -/
inductive NType where
  | Power
  | Log
  | Modulo
  | Absolute
  | Floor
  | Ceiling
  | Max
  | Min
  | ToString
  | ToNumber
  | Split
  | ToLowercase
  | ToUpperCase
  | Length
  | Insert
  | Remove
  | Map
  | Filter
  | Reduce
  | Range
  | Linspace
  | Repeat
  | RandomChoose
  | RandomNormal
  | ReadFile
  | WriteFile
  | ServeStaticFolder
  | WebGet
  | WebPost
  | NoneNT
deriving DecidableEq, Repr

/-- Payload of the `value : String` field of a Rust `Literal`.
Numbers are held as exact rationals (the Rust code holds the decimal
string and parses it as `f32` on use); every other kind of literal
keeps the string the Rust code stores (`"true"`, `"false"`, `"null"`,
string contents, or `""`). -/
inductive LVal where
  | num (q : Rat)
  | str (s : String)
deriving DecidableEq, Repr

/-- Ways an evaluation step can fail to produce a value, each
corresponding to a way the Rust process stops (or to the fuel device
of the embedding). -/
inductive Err where
  | fatal (msg : String)
  | panicErr
  | exitProg
  | unmodelled (nt : NType)
  | noFuel
deriving DecidableEq, Repr

mutual

/-- `ast.rs` `Literal`: a runtime value.  Fields mirror the Rust
struct: tag, string/number payload, array elements, optional function
descriptor, and the `is_return` flag. -/
inductive Literal where
  | mk (tag : LType) (val : LVal) (arr : List Literal)
       (func : Option Func) (isRet : Bool)

/-- `function.rs` `Function`: a function descriptor.  `params` is the
list of parameter-token lexemes, `body` the `user_defined` statement,
`closureEnv` the captured frame, `varTok` the lexeme of
`variable_token`. -/
inductive Func where
  | mk (ftype : FType) (params : List String) (body : Option Stmt)
       (nativeType : NType) (closureEnv : Option (List (String × Literal)))
       (varTok : String)

/-- `ast.rs` `Statement`, with each `StatementType` a constructor and
only the fields that statement kind uses. -/
inductive Stmt where
  | block (stmts : List Stmt)
  | exprStmt (e : Expr)
  | fnDecl (name : String) (params : List String) (body : Stmt)
  | ret (e : Expr)
  | ifS (cond : Expr) (thenB : Stmt) (elseB : Option Stmt)
  | whileS (cond : Expr) (body : Stmt)
  | letS (name : String) (e : Expr)
  | print (e : Expr)
  | println (e : Expr)
  | bai (e : Expr)
  | breakS
  | continueS

/-- `ast.rs` `Expr`, with each `ExprType` a constructor and only the
fields that expression kind uses (name fields hold the token's
lexeme). -/
inductive Expr where
  | binary (left right : Expr) (op : TokenType)
  | logical (left right : Expr) (op : TokenType)
  | arrayCreation (args : List Expr)
  | arrayAccess (left idx : Expr)
  | unary (right : Expr) (op : TokenType)
  | literal (lit : Literal)
  | grouping (right : Expr)
  | variable (name : String)
  | assign (name : String) (right : Expr)
  | arrayAssign (name : String) (idx right : Expr)
  | call (callee : Expr) (args : List Expr)
  | noneE

end

/-- `environment.rs` `Environment`: one frame, a map from identifier
to value (modelled as an association list; lookup takes the first
hit, insertion overwrites in place). -/
abbrev Env := List (String × Literal)

/-- `environment.rs` `EnvManager.envs`, with the head of the list the
innermost (most recently pushed) frame and the last element the
global frame. -/
abbrev EnvStack := List Env

namespace Literal

def tag : Literal → LType
  | .mk t _ _ _ _ => t

def val : Literal → LVal
  | .mk _ v _ _ _ => v

def arr : Literal → List Literal
  | .mk _ _ a _ _ => a

def func : Literal → Option Func
  | .mk _ _ _ f _ => f

def isRet : Literal → Bool
  | .mk _ _ _ _ r => r

/-- `Literal::new_value`. -/
def newValue (t : LType) (v : LVal) : Literal := .mk t v [] none false

/-- `Literal::none`. -/
def noneLit : Literal := newValue .None (.str "")

/-- `Literal::number`. -/
def number (q : Rat) : Literal := newValue .Number (.num q)

/-- `Literal::string`. -/
def stringLit (s : String) : Literal := newValue .String (.str s)

/-- `Literal::bool`. -/
def boolLit (b : Bool) : Literal :=
  newValue .Bool (.str (if b then "true" else "false"))

/-- `Literal::null`. -/
def nullLit : Literal := newValue .Null (.str "null")

/-- `Literal::new_array`. -/
def newArray (vs : List Literal) : Literal := .mk .Array (.str "") vs none false

/-- `Literal::new_function`. -/
def newFunction (f : Func) : Literal := .mk .Function (.str "") [] (some f) false

/-- `Literal::new_break`. -/
def breakLit : Literal := newValue .Break (.str "")

/-- `Literal::new_continue`. -/
def continueLit : Literal := newValue .Continue (.str "")

/-- Copy of a literal with the `is_return` flag set (the
`literal.is_return = true` mutation in `StatementType::Return`). -/
def setRet (l : Literal) (b : Bool) : Literal :=
  .mk l.tag l.val l.arr l.func b

/-- Copy of a literal with its array contents replaced (the in-place
mutations of `array_values` in `ExprType::ArrayAssign`). -/
def setArr (l : Literal) (a : List Literal) : Literal :=
  .mk l.tag l.val a l.func l.isRet

/-- Copy of a function literal with the descriptor's `variable_token`
set (the mutation performed by `StatementType::Let`). -/
def setFuncVarTok (l : Literal) (name : String) : Option Literal :=
  match l with
  | .mk t v a (some (.mk ft ps bd nt ce _)) r =>
      some (.mk t v a (some (.mk ft ps bd nt ce name)) r)
  | _ => none

end Literal

namespace Func

def ftype : Func → FType
  | .mk t _ _ _ _ _ => t

def params : Func → List String
  | .mk _ p _ _ _ _ => p

def body : Func → Option Stmt
  | .mk _ _ b _ _ _ => b

def nativeType : Func → NType
  | .mk _ _ _ n _ _ => n

def closureEnv : Func → Option Env
  | .mk _ _ _ _ c _ => c

def varTok : Func → String
  | .mk _ _ _ _ _ v => v

/-- `Function::new_user`. -/
def newUser (params : List String) (body : Stmt) (closure : Env)
    (varTok : String) : Func :=
  .mk .UserDefined params (some body) .NoneNT (some closure) varTok

/-- `Function::number_of_args`. -/
def numberOfArgs : NType → Nat
  | .Power => 2
  | .Log => 2
  | .Modulo => 2
  | .Absolute => 1
  | .Floor => 1
  | .Ceiling => 1
  | .Max => 2
  | .Min => 2
  | .ToString => 1
  | .ToNumber => 1
  | .Split => 2
  | .ToLowercase => 1
  | .ToUpperCase => 1
  | .Length => 1
  | .Insert => 3
  | .Remove => 2
  | .Map => 2
  | .Filter => 2
  | .Reduce => 3
  | .Range => 3
  | .Linspace => 3
  | .Repeat => 2
  | .RandomChoose => 2
  | .RandomNormal => 3
  | .ReadFile => 1
  | .WriteFile => 2
  | .ServeStaticFolder => 3
  | .WebGet => 1
  | .WebPost => 2
  | .NoneNT => 0

/-- `Function::new_native`. -/
def newNative (nt : NType) : Func := .mk .Native [] none nt none ""

/-- `Function::arg_length`. -/
def argLength (f : Func) : Nat :=
  if f.ftype = .UserDefined then f.params.length else numberOfArgs f.nativeType

/-- Copy of a descriptor with a new closure (`updated_function.closure_env
= cloned` in `Function::call`). -/
def setClosure (f : Func) (c : Env) : Func :=
  .mk f.ftype f.params f.body f.nativeType (some c) f.varTok

end Func

end Ari

namespace Ari

/-- Association-list insert-or-overwrite, the model of
`Environment::define` (a `HashMap::insert`). -/
def Env.defineVar : Env → String → Literal → Env
  | [], k, v => [(k, v)]
  | (k', v') :: rest, k, v =>
      if k' = k then (k, v) :: rest else (k', v') :: Env.defineVar rest k v

/-- `Environment::contains_key`. -/
def Env.containsKey (e : Env) (k : String) : Bool :=
  e.any (fun p => p.1 == k)

/-- `Environment::get` (first hit wins, as in a map). -/
def Env.getVal : Env → String → Option Literal
  | [], _ => none
  | (k', v') :: rest, k => if k' = k then some v' else Env.getVal rest k

/-- `EnvManager::get_variable`: walk the stack from the innermost
frame (head) to the global frame (last); `none` models the fatal
"undefined variable" diagnostic raised by the caller. -/
def EnvStack.getVariable : EnvStack → String → Option Literal
  | [], _ => none
  | f :: rest, k =>
      match Env.getVal f k with
      | some l => some l
      | none => EnvStack.getVariable rest k

/-- `EnvManager::assign_variable`: walk the stack from the innermost
frame to the global frame and overwrite the first frame that already
contains the name; `none` models the fatal "variable cannot be found
in this scope" diagnostic. -/
def EnvStack.assignVariable : EnvStack → String → Literal → Option EnvStack
  | [], _, _ => none
  | f :: rest, k, v =>
      if Env.containsKey f k then some (Env.defineVar f k v :: rest)
      else
        match EnvStack.assignVariable rest k v with
        | some rest' => some (f :: rest')
        | none => none

/-- `EnvManager::create_env`: push a fresh innermost frame. -/
def EnvStack.createEnv (s : EnvStack) : EnvStack := [] :: s

/-- `EnvManager::add_env`: push a given frame. -/
def EnvStack.addEnv (s : EnvStack) (e : Env) : EnvStack := e :: s

/-- `EnvManager::destroy_env` (`truncate(len.saturating_sub(1))`). -/
def EnvStack.destroyEnv (s : EnvStack) : EnvStack := s.tail

/-- `EnvManager::get_env` read as a snapshot (`get_env().clone()`);
the stack is never empty when the source calls it. -/
def EnvStack.getEnvTop : EnvStack → Env
  | [] => []
  | f :: _ => f

/-- `define` on the innermost frame (`ENV.get_env().define(..)`). -/
def EnvStack.defineTop : EnvStack → String → Literal → EnvStack
  | [], _, _ => []
  | f :: rest, k, v => Env.defineVar f k v :: rest

/-- Truncation toward zero, the model of `f as i32` on an exactly
represented value (saturation at the `i32` bounds is irrelevant for
the magnitudes the claims involve). -/
def ratTrunc (q : Rat) : Int := q.num.tdiv (q.den : Int)

/-- `Expr::is_truthy`. -/
def Literal.isTruthy (l : Literal) : Bool :=
  l.tag == .Bool || l.tag == .Null

/-- `Expr::string_to_bool`: converts the stored text of a Bool/Null
value; any other text is the fatal diagnostic the source prints. -/
def stringToBool (l : Literal) : Except Err Bool :=
  match l.val with
  | .str "true" => .ok true
  | .str "false" => .ok false
  | .str "null" => .ok false
  | _ => .error (.fatal "Boolean operation only handles true, false, null values.")

/-- `Expr::string_to_float`: reads the numeric payload; a
non-numeric payload models `parse::<f32>().unwrap()` panicking. -/
def stringToFloat (l : Literal) : Except Err Rat :=
  match l.val with
  | .num q => .ok q
  | .str _ => .error .panicErr

/-- Decimal text of a number value (the Rust code keeps the `f32`'s
`to_string()`; on integral values the two agree). -/
def ratText (q : Rat) : String :=
  if q.den = 1 then toString q.num else toString q.num ++ "/" ++ toString q.den

/-- Text stored in the `value` field. -/
def LVal.text : LVal → String
  | .num q => ratText q
  | .str s => s

/-- `Expr::divide`: quotient unless the divisor truncates to integer
zero (`right_value as i32 == 0`). -/
def divide (lv rv : Rat) : Option Rat :=
  if ratTrunc rv = 0 then none else some (lv / rv)

/-- `Expr::is_valid_arithmetic`. -/
def isValidArithmetic (lt rt : LType) : Bool :=
  lt == rt && (lt == .Number || lt == .Array)

/-- `Expr::add_or_concat`: `some mixed` on a supported pair of tags,
`none` for the unsupported-type error. -/
def addOrConcat (lt rt : LType) : Option Bool :=
  if lt = rt then some false
  else if (lt = .String && rt = .Number) || (lt = .Number && rt = .String) then
    some true
  else none

/-- `Expr::add`: string concatenation of the stored texts, or the
numeric sum. -/
def addLit (l r : Literal) (stringConcat : Bool) : Except Err Literal :=
  if stringConcat then
    .ok (Literal.stringLit (l.val.text ++ r.val.text))
  else do
    let lv ← stringToFloat l
    let rv ← stringToFloat r
    .ok (Literal.number (lv + rv))

/-- `Expr::is_equal`. -/
def isEqual (l r : Literal) : Except Err Bool :=
  if l.tag ≠ r.tag then
    .error (.fatal "equality cannot be applied to different types")
  else
    match l.tag with
    | .Number => do
        let lv ← stringToFloat l
        let rv ← stringToFloat r
        .ok (decide (lv = rv))
    | .String => .ok (decide (l.val = r.val))
    | .Bool => .ok (decide (l.val = r.val))
    | .Null => .ok (decide (l.val = r.val))
    | _ => .error (.fatal "equality cannot be applied to these types")

/-- Element-wise numeric operation over the zip of two arrays (the
`par_iter().zip(..).map(..)` loops of `-` and `*`; the lengths were
checked equal before). -/
def zipNumOp (f : Rat → Rat → Rat) : List Literal → List Literal →
    Except Err (List Literal)
  | [], _ => .ok []
  | _ :: _, [] => .ok []
  | a :: as', b :: bs => do
      let av ← stringToFloat a
      let bv ← stringToFloat b
      let rest ← zipNumOp f as' bs
      .ok (Literal.number (f av bv) :: rest)

/-- Element-wise `Expr::add` over the zip of two arrays. -/
def zipAdd (stringConcat : Bool) : List Literal → List Literal →
    Except Err (List Literal)
  | [], _ => .ok []
  | _ :: _, [] => .ok []
  | a :: as', b :: bs => do
      let v ← addLit a b stringConcat
      let rest ← zipAdd stringConcat as' bs
      .ok (v :: rest)

/-- Element-wise `Expr::divide` over the zip of two arrays; the first
zero divisor aborts the whole collect with the fatal diagnostic. -/
def zipDivide : List Literal → List Literal → Except Err (List Literal)
  | [], _ => .ok []
  | _ :: _, [] => .ok []
  | a :: as', b :: bs => do
      let av ← stringToFloat a
      let bv ← stringToFloat b
      match divide av bv with
      | some v => do
          let rest ← zipDivide as' bs
          .ok (Literal.number v :: rest)
      | none => .error (.fatal "Division by zero in one of the array elements occurs")

/-- Shared shape of the array branches of `-` and `*` in
`Expr::evaluate_expr` (length check, empty case, element-type check,
Number-only zip). -/
def arrayNumOp (opName : String) (f : Rat → Rat → Rat)
    (left right : Literal) : Except Err Literal :=
  let la := left.arr
  let ra := right.arr
  if la.length ≠ ra.length then
    .error (.fatal (opName ++ " of arrays of different sizes"))
  else
    match la, ra with
    | [], _ => .ok (Literal.newArray [])
    | a0 :: _, b0 :: _ =>
        if a0.tag ≠ b0.tag then
          .error (.fatal "Arrays are not of the same type")
        else if a0.tag = .Number then do
          let vs ← zipNumOp f la ra
          .ok (Literal.newArray vs)
        else .error (.fatal (opName ++ " cannot be applied to these element types"))
    | _ :: _, [] => .error .panicErr

/-- The `TokenType::Slash` array branch. -/
def arrayDivOp (left right : Literal) : Except Err Literal :=
  let la := left.arr
  let ra := right.arr
  if la.length ≠ ra.length then
    .error (.fatal "Cannot divide array of different sizes")
  else
    match la, ra with
    | [], _ => .ok (Literal.newArray [])
    | a0 :: _, b0 :: _ =>
        if a0.tag ≠ b0.tag then
          .error (.fatal "Arrays are not of the same type")
        else if a0.tag = .Number then do
          let vs ← zipDivide la ra
          .ok (Literal.newArray vs)
        else .error (.fatal "Array division cannot be applied to these element types")
    | _ :: _, [] => .error .panicErr

/-- The `TokenType::Plus` array branch. -/
def arrayAddOp (left right : Literal) : Except Err Literal :=
  let la := left.arr
  let ra := right.arr
  if la.length ≠ ra.length then
    .error (.fatal "Cannot add array of different sizes")
  else
    match la, ra with
    | [], _ => .ok (Literal.newArray [])
    | a0 :: _, b0 :: _ =>
        match addOrConcat a0.tag b0.tag with
        | none => .error (.fatal "Arrays are not of the same type")
        | some mixed =>
            if a0.tag = .Number then do
              let vs ← zipAdd mixed la ra
              .ok (Literal.newArray vs)
            else if a0.tag = .String then do
              let vs ← zipAdd true la ra
              .ok (Literal.newArray vs)
            else .error (.fatal "Array addition cannot be applied to these element types")
    | _ :: _, [] => .error .panicErr

/-- The comparison arms (`>`, `>=`, `<`, `<=`): validity check, then
`string_to_float` on both sides (which panics on an Array's empty
text, as the source would). -/
def compareOp (left right : Literal) (f : Rat → Rat → Bool) :
    Except Err Literal :=
  if ¬ isValidArithmetic left.tag right.tag then
    .error (.fatal "comparison cannot be applied to these types")
  else do
    let lv ← stringToFloat left
    let rv ← stringToFloat right
    .ok (Literal.boolLit (f lv rv))

/-- The `ExprType::Binary` dispatch of `Expr::evaluate_expr`, once
both operands have been evaluated to literals. -/
def evalBinary (op : TokenType) (left right : Literal) : Except Err Literal :=
  match op with
  | .Minus =>
      if ¬ isValidArithmetic left.tag right.tag then
        .error (.fatal "Subtraction cannot be applied to these types")
      else if left.tag = .Number then do
        let lv ← stringToFloat left
        let rv ← stringToFloat right
        .ok (Literal.number (lv - rv))
      else arrayNumOp "Subtraction" (fun a b => a - b) left right
  | .Slash =>
      if ¬ isValidArithmetic left.tag right.tag then
        .error (.fatal "Division cannot be applied to these types")
      else if left.tag = .Number then do
        let lv ← stringToFloat left
        let rv ← stringToFloat right
        match divide lv rv with
        | some v => .ok (Literal.number v)
        | none => .error (.fatal "Division by zero occurs")
      else arrayDivOp left right
  | .Star =>
      if ¬ isValidArithmetic left.tag right.tag then
        .error (.fatal "Multiplication cannot be applied to these types")
      else if left.tag = .Number then do
        let lv ← stringToFloat left
        let rv ← stringToFloat right
        .ok (Literal.number (lv * rv))
      else arrayNumOp "Multiplication" (fun a b => a * b) left right
  | .Plus =>
      match addOrConcat left.tag right.tag with
      | none => .error (.fatal "Addition cannot be applied to these types")
      | some mixed =>
          match left.tag with
          | .Number => addLit left right mixed
          | .String => addLit left right true
          | .Array => arrayAddOp left right
          | _ => .error (.fatal "Addition cannot be applied to these types")
  | .Greater => compareOp left right (fun a b => decide (a > b))
  | .GreaterEqual => compareOp left right (fun a b => decide (a ≥ b))
  | .Less => compareOp left right (fun a b => decide (a < b))
  | .LessEqual => compareOp left right (fun a b => decide (a ≤ b))
  | .BangEqual => do
      let b ← isEqual left right
      .ok (Literal.boolLit (¬ b))
  | .EqualEqual => do
      let b ← isEqual left right
      .ok (Literal.boolLit b)
  | _ => .error (.fatal "not a binary operation")

/-- The `ExprType::Logical` dispatch of `Expr::evaluate_expr`, once
BOTH operands have been evaluated (the source evaluates left and
right before this point).  The truthiness guard tests the LEFT
literal twice, exactly as the source line
`if !Expr::is_truthy(&left_literal) || !Expr::is_truthy(&left_literal)`
does; the right literal's type is never inspected. -/
def evalLogical (op : TokenType) (leftL rightL : Literal) : Except Err Literal :=
  if ¬ leftL.isTruthy || ¬ leftL.isTruthy then
    .error (.fatal "Logical operator cannot be applied to these types")
  else
    match op with
    | .Or => do
        let b ← stringToBool leftL
        if b then .ok leftL else .ok rightL
    | .And => do
        let b ← stringToBool leftL
        if ¬ b then .ok leftL else .ok rightL
    | _ => .error (.fatal "not a logical operation")

/-- The `ExprType::Unary` dispatch once the operand is a literal. -/
def evalUnary (op : TokenType) (l : Literal) : Except Err Literal :=
  match op with
  | .Minus =>
      if l.tag ≠ .Number then
        .error (.fatal "Sign reversal cannot be applied to this type")
      else do
        let v ← stringToFloat l
        .ok (Literal.number (-v))
  | .Bang =>
      if ¬ l.isTruthy then
        .error (.fatal "Negation cannot be applied to this type")
      else
        match l.val with
        | .str "true" => .ok (Literal.boolLit false)
        | .str "false" => .ok (Literal.boolLit true)
        | .str "null" => .ok (Literal.boolLit true)
        | _ => .error (.fatal "Boolean reversal only handles true, false, null values")
  | _ => .error (.fatal "not a unary operation")

/-- The index validation shared by `ExprType::ArrayAssign` and
`ExprType::ArrayAccess` (and `insert`/`remove`): the index literal
must be a Number, integral (zero `fract()`), and non-negative after
`as i32` truncation. -/
def indexCheckCore (idxLit : Literal) : Except Err Int :=
  if idxLit.tag ≠ .Number then
    .error (.fatal "not a valid array index type. Only positive integers are allowed")
  else do
    let q ← stringToFloat idxLit
    if q.den ≠ 1 then
      .error (.fatal "is a float and is not a valid array index. Only positive integers are allowed")
    else
      let i := ratTrunc q
      if i < 0 then
        .error (.fatal "is negative and is not a valid array index. Only positive integers are allowed")
      else .ok i

/-- The mutation step of `ExprType::ArrayAssign` once the index has
been validated (non-negative `i`) and the new value evaluated: a push
is possible only into an EMPTY array at index 0; on a non-empty array
the index must already exist and the new value's tag must match
element 0's tag. -/
def arrayAssignApply (arrRef : Literal) (i : Int) (v : Literal) :
    Except Err Literal :=
  if arrRef.arr.length = 0 then
    if i = 0 then .ok (arrRef.setArr [v])
    else .error (.fatal "Attempt to modify empty array with this index. Can only modify with index 0")
  else
    match arrRef.arr[i.toNat]? with
    | none => .error (.fatal "Attempt to modify non-existent index in array")
    | some _ =>
        match arrRef.arr with
        | orig :: _ =>
            if orig.tag ≠ v.tag then
              .error (.fatal "Array values are not of the same type")
            else .ok (arrRef.setArr (arrRef.arr.set i.toNat v))
        | [] => .error .panicErr

/-- `Statement::print`, as the text it would write (without the
newline handling): for an Array the summary
`Tag(N) => [e0,e1,... ]` whose header reads element 0's tag with
`array_values.get(0).unwrap()` — so the empty array has no text at
all (`none`, the unwrap panic); any other value prints its stored
text. -/
def printLiteral (l : Literal) : Option String :=
  if l.tag = .Array then
    match l.arr[0]? with
    | none => none
    | some first =>
        let length := l.arr.length
        let shown := (l.arr.take 5).enum.map
          (fun p => p.2.val.text ++ (if p.1 ≠ length - 1 then "," else ""))
        some (reprStr first.tag ++ "(" ++ toString length ++ ") => [" ++
          String.join shown ++ (if length ≥ 6 then " ..." else "") ++ "]")
  else some l.val.text

/-- `split` (`function.rs`): String source and delimiter, Array of
String out.  `String.splitOn` models Rust `str::split` for the
non-empty delimiters the claims use. -/
def splitNative (args : List Literal) : Except Err Literal :=
  match args with
  | [source, delim] =>
      if source.tag ≠ .String then
        .error (.fatal "split expects 1st argument of type String")
      else if delim.tag ≠ .String then
        .error (.fatal "split expects 2nd argument of type String")
      else
        match source.val, delim.val with
        | .str s, .str d =>
            .ok (Literal.newArray ((s.splitOn d).map Literal.stringLit))
        | _, _ => .error .panicErr
  | _ => .error .panicErr

/-- `repeat` (`function.rs`): value and count, Array of copies. -/
def repeatNative (args : List Literal) : Except Err Literal :=
  match args with
  | [v, n] =>
      if n.tag ≠ .Number then
        .error (.fatal "not a valid repeat value. Only positive integers are allowed")
      else do
        let q ← stringToFloat n
        if q.den ≠ 1 then
          .error (.fatal "is a float and is not a valid repeat value. Only positive integers are allowed")
        else
          let i := ratTrunc q
          if i < 0 then
            .error (.fatal "is negative and is not a valid repeat value. Only positive integers are allowed")
          else .ok (Literal.newArray (List.replicate i.toNat v))
  | _ => .error .panicErr

/-- The unbounded `loop` of `range` (`function.rs` lines 866-880):
push the current start, then step — `start += step` when increasing
but `start -= step` when decreasing — and stop once the walker passes
`end`.  Fuel models the unboundedness. -/
def rangeLoop (fuel : Nat) (increasing : Bool) (startv endv step : Rat)
    (acc : List Literal) : Option (List Literal) :=
  match fuel with
  | 0 => none
  | n + 1 =>
      let acc := acc ++ [Literal.number startv]
      if increasing then
        let s' := startv + step
        if s' > endv then some acc
        else rangeLoop n increasing s' endv step acc
      else
        let s' := startv - step
        if s' < endv then some acc
        else rangeLoop n increasing s' endv step acc

/-- `range` (`function.rs`): validation (Number arguments, non-zero
step whose sign matches the direction), then the loop above. -/
def rangeNative (fuel : Nat) (args : List Literal) : Except Err Literal :=
  match args with
  | [start, endL, step] =>
      if start.tag ≠ .Number then
        .error (.fatal "range expects 1st argument of type Number")
      else if endL.tag ≠ .Number then
        .error (.fatal "range expects 2nd argument of type Number")
      else do
        let startF ← stringToFloat start
        let endF ← stringToFloat endL
        let stepF ← stringToFloat step
        if startF = endF then .ok (Literal.newArray [start])
        else
          let increasing := startF < endF
          if step.tag ≠ .Number then
            .error (.fatal "not a valid step for range")
          else if stepF = 0 then
            .error (.fatal "range expects a non-zero step")
          else if increasing ∧ stepF < 0 then
            .error (.fatal "range expects a positive step")
          else if ¬ increasing ∧ stepF > 0 then
            .error (.fatal "range expects a negative step")
          else
            match rangeLoop fuel increasing startF endF stepF [] with
            | some vs => .ok (Literal.newArray vs)
            | none => .error .noFuel
  | _ => .error .panicErr

/-- `string_to_bool` helper of `function.rs` (used by `filter`);
panics on any other text. -/
def stringToBoolStr (s : String) : Except Err Bool :=
  match s with
  | "true" => .ok true
  | "false" => .ok false
  | "null" => .ok false
  | _ => .error .panicErr

/-- Whether every element of a list carries the given tag. -/
def allTag (t : LType) (l : List Literal) : Bool :=
  l.all (fun a => a.tag == t)

/-- Array homogeneity: all elements share the first element's tag. -/
def allSameTag : List Literal → Bool
  | [] => true
  | a :: rest => allTag a.tag rest

end Ari

namespace Ari

/-- The work items of the evaluator: expressions and statements, plus
the internal loops of the source (the statement loop of a Block, the
argument loop of a Call, the element loop of an array literal, the
`loop` of While, the iterations inside `map` and `filter`, the
statement loop of `lib.rs run`) and the call protocol of
`Function::call`. -/
inductive Task where
  | expr (e : Expr)
  | stmt (s : Stmt)
  | stmts (l : List Stmt)
  | args (l : List Expr) (acc : List Literal)
  | arrElems (l : List Expr) (vt : LType) (acc : List Literal)
  | callF (f : Func) (argv : List Literal)
  | callNat (nt : NType) (argv : List Literal)
  | mapLoop (f : Func) (l : List Literal) (acc : List Literal)
  | filterLoop (f : Func) (l : List Literal) (acc : List Literal)
  | whileLoop (c : Expr) (b : Stmt)
  | program (l : List Stmt)

/-- Results a task can produce. -/
inductive Out where
  | lit (l : Literal)
  | lits (ls : List Literal)
  | optLit (o : Option Literal)
  | unit

/-- Project an evaluation result to a literal; by construction the
expression/statement tasks only ever produce `Out.lit`. -/
def asLit : Except Err (Out × EnvStack) → Except Err (Literal × EnvStack)
  | .ok (.lit l, env) => .ok (l, env)
  | .ok _ => .error .panicErr
  | .error e => .error e

/-- Project an evaluation result to a literal list. -/
def asLits : Except Err (Out × EnvStack) → Except Err (List Literal × EnvStack)
  | .ok (.lits ls, env) => .ok (ls, env)
  | .ok _ => .error .panicErr
  | .error e => .error e

/-- Project an evaluation result to `Function::call`'s optional
literal. -/
def asOpt : Except Err (Out × EnvStack) →
    Except Err (Option Literal × EnvStack)
  | .ok (.optLit o, env) => .ok (o, env)
  | .ok _ => .error .panicErr
  | .error e => .error e

/-- The binding loop of `Function::call_user`: insert each argument
value under the matching parameter lexeme into the innermost frame;
`none` models the `self.arguments.get(i).unwrap()` panic when there
are more values than parameters (unreachable behind the arity
check). -/
def bindArgs : EnvStack → List String → List Literal → Option EnvStack
  | env, _, [] => some env
  | env, p :: ps, a :: rest => bindArgs (env.defineTop p a) ps rest
  | _, [], _ :: _ => none

/-- The evaluator: `Statement::evaluate_statement`,
`Expr::evaluate_expr`, `Function::call` / `call_user` / `call_native`
and the built-ins that recurse into evaluation, merged into one
fuel-indexed function (the source recursion is unbounded; every
recursive step costs one unit of fuel and exhaustion yields
`Err.noFuel`). -/
def eval : Nat → Task → EnvStack → Except Err (Out × EnvStack)
  | 0, _, _ => .error .noFuel
  | n + 1, .expr e, env =>
    match e with
    | .binary l r op => do
        let (ll, env) ← asLit (eval n (.expr l) env)
        let (rl, env) ← asLit (eval n (.expr r) env)
        match evalBinary op ll rl with
        | .ok v => .ok (.lit v, env)
        | .error er => .error er
    | .logical l r op => do
        let (ll, env) ← asLit (eval n (.expr l) env)
        let (rl, env) ← asLit (eval n (.expr r) env)
        match evalLogical op ll rl with
        | .ok v => .ok (.lit v, env)
        | .error er => .error er
    | .unary r op => do
        let (rl, env) ← asLit (eval n (.expr r) env)
        match evalUnary op rl with
        | .ok v => .ok (.lit v, env)
        | .error er => .error er
    | .grouping r => eval n (.expr r) env
    | .literal l => .ok (.lit l, env)
    | .variable name =>
        match env.getVariable name with
        | some l => .ok (.lit l, env)
        | none => .error (.fatal "is an undefined variable")
    | .assign name r => do
        let (v, env) ← asLit (eval n (.expr r) env)
        match env.assignVariable name v with
        | some env' => .ok (.lit Literal.noneLit, env')
        | none => .error (.fatal "variable cannot be found in this scope")
    | .arrayAssign name idx r =>
        match env.getVariable name with
        | none => .error (.fatal "is an undefined variable")
        | some arrRef =>
            if arrRef.tag = .Array then do
              let (idxLit, env) ← asLit (eval n (.expr idx) env)
              match indexCheckCore idxLit with
              | .error er => .error er
              | .ok i => do
                  let (v, env) ← asLit (eval n (.expr r) env)
                  match arrayAssignApply arrRef i v with
                  | .error er => .error er
                  | .ok newRef =>
                      match env.assignVariable name newRef with
                      | some env' => .ok (.lit Literal.noneLit, env')
                      | none => .error (.fatal "variable cannot be found in this scope")
            else .error (.fatal "is not an array and cannot be indexed")
    | .arrayCreation elems =>
        match elems with
        | [] => .ok (.lit (Literal.newArray []), env)
        | x :: rest => do
            let (v, env) ← asLit (eval n (.expr x) env)
            eval n (.arrElems rest v.tag [v]) env
    | .arrayAccess l idx => do
        let (arrRef, env) ← asLit (eval n (.expr l) env)
        if arrRef.tag = .Array then do
          let (idxLit, env) ← asLit (eval n (.expr idx) env)
          match indexCheckCore idxLit with
          | .error er => .error er
          | .ok i =>
              match arrRef.arr[i.toNat]? with
              | some v => .ok (.lit v, env)
              | none => .error (.fatal "Attempt to access non-existent index in array")
        else .error (.fatal "is not an array and cannot be indexed")
    | .call callee cargs => do
        let (cl, env) ← asLit (eval n (.expr callee) env)
        let (argv, env) ← asLits (eval n (.args cargs []) env)
        if cl.tag ≠ .Function then
          .error (.fatal "is not a function that can be called")
        else
          match cl.func with
          | none => .error .panicErr
          | some f =>
              if f.argLength ≠ argv.length then
                .error (.fatal "Function expects a different number of arguments")
              else do
                let (r, env) ← asOpt (eval n (.callF f argv) env)
                match r with
                | some l => .ok (.lit l, env)
                | none => .error (.fatal "Cannot invoke Function of type None")
    | .noneE => .ok (.lit Literal.noneLit, env)
  | n + 1, .args l acc, env =>
    match l with
    | [] => .ok (.lits acc, env)
    | x :: rest => do
        let (v, env) ← asLit (eval n (.expr x) env)
        eval n (.args rest (acc ++ [v])) env
  | n + 1, .arrElems l vt acc, env =>
    match l with
    | [] => .ok (.lit (Literal.newArray acc), env)
    | x :: rest => do
        let (v, env) ← asLit (eval n (.expr x) env)
        if v.tag ≠ vt then
          .error (.fatal "Array values are not of the same type")
        else eval n (.arrElems rest vt (acc ++ [v])) env
  | n + 1, .stmt s, env =>
    match s with
    | .fnDecl name params body =>
        let closure := env.getEnvTop
        let f := Func.newUser params body closure name
        .ok (.lit Literal.noneLit, env.defineTop name (Literal.newFunction f))
    | .ret e => do
        let (l, env) ← asLit (eval n (.expr e) env)
        .ok (.lit (l.setRet true), env)
    | .block stmts => do
        let (r, env) ← asLit (eval n (.stmts stmts) env.createEnv)
        .ok (.lit r, env.destroyEnv)
    | .exprStmt e => eval n (.expr e) env
    | .ifS c t els => do
        let (cl, env) ← asLit (eval n (.expr c) env)
        if ¬ cl.isTruthy then
          .error (.fatal "If conditional cannot be applied to this type")
        else
          match stringToBool cl with
          | .error er => .error er
          | .ok b =>
              if b then do
                let (r, env) ← asLit (eval n (.stmt t) env)
                if r.tag == .Break || r.tag == .Continue || r.isRet then
                  .ok (.lit r, env)
                else .ok (.lit Literal.noneLit, env)
              else
                match els with
                | some es => do
                    let (r, env) ← asLit (eval n (.stmt es) env)
                    if r.tag == .Break || r.tag == .Continue || r.isRet then
                      .ok (.lit r, env)
                    else .ok (.lit Literal.noneLit, env)
                | none => .ok (.lit Literal.noneLit, env)
    | .whileS c b => eval n (.whileLoop c b) env
    | .letS name e =>
        match e with
        | .noneE => .error (.fatal "Invalid variable definition")
        | _ => do
            let (l, env) ← asLit (eval n (.expr e) env)
            if l.tag = .Function then
              match l.setFuncVarTok name with
              | some l' => .ok (.lit l', env.defineTop name l')
              | none => .error .panicErr
            else .ok (.lit l, env.defineTop name l)
    | .print e => do
        let (l, env) ← asLit (eval n (.expr e) env)
        match printLiteral l with
        | some _ => .ok (.lit Literal.noneLit, env)
        | none => .error .panicErr
    | .println e => do
        let (l, env) ← asLit (eval n (.expr e) env)
        match printLiteral l with
        | some _ => .ok (.lit Literal.noneLit, env)
        | none => .error .panicErr
    | .bai e => do
        let (_, _) ← asLit (eval n (.expr e) env)
        .error .exitProg
    | .breakS => .ok (.lit Literal.breakLit, env)
    | .continueS => .ok (.lit Literal.continueLit, env)
  | n + 1, .stmts l, env =>
    match l with
    | [] => .ok (.lit Literal.noneLit, env)
    | s :: rest => do
        let (r, env) ← asLit (eval n (.stmt s) env)
        if r.tag == .Break || r.isRet then .ok (.lit r, env)
        else if r.tag == .Continue then .ok (.lit Literal.continueLit, env)
        else eval n (.stmts rest) env
  | n + 1, .whileLoop c b, env => do
      let (cl, env) ← asLit (eval n (.expr c) env)
      if ¬ cl.isTruthy then
        .error (.fatal "While conditional cannot be applied to this type")
      else
        match stringToBool cl with
        | .error er => .error er
        | .ok cond =>
            if cond then do
              let (r, env) ← asLit (eval n (.stmt b) env)
              if r.tag == .Break then .ok (.lit Literal.noneLit, env)
              else eval n (.whileLoop c b) env
            else .ok (.lit Literal.noneLit, env)
  | n + 1, .callF f argv, env =>
    match f.ftype with
    | .UserDefined =>
        match f.closureEnv, f.body with
        | some closure, some body =>
            let env := (env.addEnv closure).createEnv
            match bindArgs env f.params argv with
            | none => .error .panicErr
            | some env => do
                let (r, env) ← asLit (eval n (.stmt body) env)
                let env := env.destroyEnv
                let cloned := env.getEnvTop
                let env := env.destroyEnv
                let updated := f.setClosure cloned
                match env.assignVariable f.varTok (Literal.newFunction updated) with
                | some env' => .ok (.optLit (some r), env')
                | none => .error (.fatal "variable cannot be found in this scope")
        | _, _ => .error .panicErr
    | .Native => do
        let (r, env) ← asLit (eval n (.callNat f.nativeType argv) env.createEnv)
        .ok (.optLit (some r), env.destroyEnv)
    | .NoneF => .ok (.optLit none, env)
  | n + 1, .callNat nt argv, env =>
    match nt with
    | .Split =>
        match splitNative argv with
        | .ok v => .ok (.lit v, env)
        | .error er => .error er
    | .Repeat =>
        match repeatNative argv with
        | .ok v => .ok (.lit v, env)
        | .error er => .error er
    | .Range =>
        match rangeNative n argv with
        | .ok v => .ok (.lit v, env)
        | .error er => .error er
    | .Map =>
        match argv with
        | [source, mf] =>
            if source.tag ≠ .Array then
              .error (.fatal "map expects 1st argument of type Array")
            else if mf.tag ≠ .Function then
              .error (.fatal "map expects 2nd argument of type Function")
            else
              match mf.func with
              | none => .error .panicErr
              | some f =>
                  if f.argLength ≠ 1 then
                    .error (.fatal "map expects a function with 1 argument")
                  else do
                    let (vs, env) ← asLits (eval n (.mapLoop f source.arr []) env)
                    .ok (.lit (Literal.newArray vs), env)
        | _ => .error .panicErr
    | .Filter =>
        match argv with
        | [source, ff] =>
            if source.tag ≠ .Array then
              .error (.fatal "filter expects 1st argument of type Array")
            else if ff.tag ≠ .Function then
              .error (.fatal "filter expects 2nd argument of type Function")
            else
              match ff.func with
              | none => .error .panicErr
              | some f =>
                  if f.argLength ≠ 1 then
                    .error (.fatal "filter expects a function with 1 argument")
                  else
                    match source.arr with
                    | [] => do
                        let (vs, env) ← asLits (eval n (.filterLoop f [] []) env)
                        .ok (.lit (Literal.newArray vs), env)
                    | a0 :: _ => do
                        let (r0, env) ← asOpt (eval n (.callF f [a0]) env)
                        match r0 with
                        | none => .error (.fatal "filter cannot invoke Function of type None")
                        | some l0 =>
                            if l0.tag ≠ .Bool ∧ l0.tag ≠ .Null ∧ l0.tag ≠ .None then
                              .error (.fatal "filter expects 2nd argument to return Bool")
                            else do
                              let (vs, env) ← asLits (eval n (.filterLoop f source.arr []) env)
                              .ok (.lit (Literal.newArray vs), env)
        | _ => .error .panicErr
    | _ => .error (.unmodelled nt)
  | n + 1, .mapLoop f l acc, env =>
    match l with
    | [] => .ok (.lits acc, env)
    | x :: rest => do
        let (r, env) ← asOpt (eval n (.callF f [x]) env)
        match r with
        | some v => eval n (.mapLoop f rest (acc ++ [v])) env
        | none => .error (.fatal "map cannot invoke Function of type None")
  | n + 1, .filterLoop f l acc, env =>
    match l with
    | [] => .ok (.lits acc, env)
    | x :: rest => do
        let (r, env) ← asOpt (eval n (.callF f [x]) env)
        match r with
        | none => .error (.fatal "filter cannot invoke Function of type None")
        | some v =>
            let keepRes :=
              if v.tag = .None then Except.ok false else stringToBoolStr v.val.text
            match keepRes with
            | .error er => .error er
            | .ok keep =>
                eval n (.filterLoop f rest (if keep then acc ++ [x] else acc)) env
  | n + 1, .program l, env =>
    match l with
    | [] => .ok (.unit, env)
    | s :: rest => do
        let (_, env) ← asLit (eval n (.stmt s) env)
        eval n (.program rest) env

end Ari

namespace Ari

/-- The global frame seeded with the native-function bindings, in the
registration order of `environment.rs`. -/
def globalEnv : Env :=
  [ ("power", Literal.newFunction (Func.newNative .Power)),
    ("log", Literal.newFunction (Func.newNative .Log)),
    ("modulo", Literal.newFunction (Func.newNative .Modulo)),
    ("absolute", Literal.newFunction (Func.newNative .Absolute)),
    ("floor", Literal.newFunction (Func.newNative .Floor)),
    ("ceiling", Literal.newFunction (Func.newNative .Ceiling)),
    ("max", Literal.newFunction (Func.newNative .Max)),
    ("min", Literal.newFunction (Func.newNative .Min)),
    ("to_string", Literal.newFunction (Func.newNative .ToString)),
    ("to_number", Literal.newFunction (Func.newNative .ToNumber)),
    ("split", Literal.newFunction (Func.newNative .Split)),
    ("to_lowercase", Literal.newFunction (Func.newNative .ToLowercase)),
    ("to_uppercase", Literal.newFunction (Func.newNative .ToUpperCase)),
    ("length", Literal.newFunction (Func.newNative .Length)),
    ("insert", Literal.newFunction (Func.newNative .Insert)),
    ("remove", Literal.newFunction (Func.newNative .Remove)),
    ("map", Literal.newFunction (Func.newNative .Map)),
    ("filter", Literal.newFunction (Func.newNative .Filter)),
    ("reduce", Literal.newFunction (Func.newNative .Reduce)),
    ("range", Literal.newFunction (Func.newNative .Range)),
    ("linspace", Literal.newFunction (Func.newNative .Linspace)),
    ("repeat", Literal.newFunction (Func.newNative .Repeat)),
    ("random_choose", Literal.newFunction (Func.newNative .RandomChoose)),
    ("random_normal", Literal.newFunction (Func.newNative .RandomNormal)),
    ("read_file", Literal.newFunction (Func.newNative .ReadFile)),
    ("write_file", Literal.newFunction (Func.newNative .WriteFile)),
    ("serve_static_folder", Literal.newFunction (Func.newNative .ServeStaticFolder)),
    ("web_get", Literal.newFunction (Func.newNative .WebGet)),
    ("web_post", Literal.newFunction (Func.newNative .WebPost)) ]

/-- Body of `fn f() { return 1; }`. -/
def ex1Body : Stmt := .block [.ret (.literal (Literal.number 1))]

/-- The function value the declaration of `f` produces (closure is the
snapshot of the then-empty global frame). -/
def ex1Func : Func := Func.newUser [] ex1Body [] "f"

/-- Environment after declaring `f`. -/
def ex1Env : EnvStack := [[("f", Literal.newFunction ex1Func)]]

/-- The call expression `f()`. -/
def ex1Call : Expr := .call (.variable "f") []

/-- The program `let i = 0; while (true) { i = i + 1;
if (i == 2) { break; } return 7; }`. -/
def ex2Prog : List Stmt :=
  [ .letS "i" (.literal (Literal.number 0)),
    .whileS (.literal (Literal.boolLit true))
      (.block
        [ .exprStmt (.assign "i" (.binary (.variable "i")
            (.literal (Literal.number 1)) .Plus)),
          .ifS (.binary (.variable "i") (.literal (Literal.number 2)) .EqualEqual)
            (.block [.breakS]) none,
          .ret (.literal (Literal.number 7)) ]) ]

/-- Body of `fn g(x) { if (x == 0) { return 0; } return "s"; }`. -/
def ex3GBody : Stmt :=
  .block
    [ .ifS (.binary (.variable "x") (.literal (Literal.number 0)) .EqualEqual)
        (.block [.ret (.literal (Literal.number 0))]) none,
      .ret (.literal (Literal.stringLit "s")) ]

/-- The function value `g` (closure: the global frame before `g` is
defined, as `StatementType::Function` snapshots it). -/
def ex3GFunc : Func := Func.newUser ["x"] ex3GBody globalEnv "g"

/-- Environment after declaring `g` at top level. -/
def ex3Env : EnvStack :=
  [Env.defineVar globalEnv "g" (Literal.newFunction ex3GFunc)]

/-- The call `map([0, 1], g)`. -/
def ex3Call : Expr :=
  .call (.variable "map")
    [.arrayCreation [.literal (Literal.number 0), .literal (Literal.number 1)],
     .variable "g"]

/-- The heterogeneous array that `map([0, 1], g)` actually returns:
a Number element and a String element (both still carrying the
un-cleared `is_return` flag — see C1). -/
def ex3Result : Literal :=
  Literal.mk .Array (.str "")
    [Literal.mk .Number (.num 0) [] none true,
     Literal.mk .String (.str "s") [] none true] none false

/-- A user predicate `fn p(x) { return true; }`, used to exercise
`filter`. -/
def ex3FilterFunc : Func :=
  Func.newUser ["x"] (.block [.ret (.literal (Literal.boolLit true))]) [] "p"

/-- C1: the claim says `Function::call` clears the `is_return` flag of
the body's result before handing it to the caller (spec section 4.6
step 7).  The code never clears the flag: the call expression `f()`
for `fn f() { return 1; }` yields the literal 1 with
`is_return == true`, and as a consequence a block statement containing
`f();` aborts the remaining statements of the block (the trailing
`let z = 0;` below is never executed).  This theorem evaluates the
code at that failing input. -/
theorem claim1_call_keeps_return_flag :
    eval 9 (.stmt (.fnDecl "f" [] ex1Body)) [[]] =
      .ok (.lit Literal.noneLit, ex1Env) ∧
    eval 32 (.expr ex1Call) ex1Env =
      .ok (.lit (Literal.mk .Number (.num 1) [] none true), ex1Env) ∧
    eval 32 (.stmts [.exprStmt ex1Call,
        .letS "z" (.literal (Literal.number 0))]) ex1Env =
      .ok (.lit (Literal.mk .Number (.num 1) [] none true), ex1Env) := by
  refine ⟨rfl, rfl, rfl⟩

/-- One pass of the body `{ return 1; }` yields the return-tagged 1
and restores the environment stack. -/
theorem whileTrueBodyEval (m : Nat) (env : EnvStack) :
    eval (m + 4) (.stmt (.block [.ret (.literal (Literal.number 1))])) env =
      .ok (.lit (Literal.mk .Number (.num 1) [] none true), env) := rfl

/-- `while (true) { return 1; }` never terminates: each iteration's
return-tagged result is not `Break`, so the loop re-enters the
condition, for every fuel bound. -/
theorem whileTrueReturnDiverges :
    ∀ fuel (env : EnvStack),
      eval fuel (.whileLoop (.literal (Literal.boolLit true))
        (.block [.ret (.literal (Literal.number 1))])) env =
      .error .noFuel := by
  intro fuel
  induction fuel with
  | zero => intro env; rfl
  | succ n ih =>
      intro env
      rcases n with _ | (_ | (_ | (_ | m)))
      · rfl
      · rfl
      · rfl
      · rfl
      · have hstep :
            eval (m + 5) (.whileLoop (.literal (Literal.boolLit true))
              (.block [.ret (.literal (Literal.number 1))])) env =
            eval (m + 4) (.whileLoop (.literal (Literal.boolLit true))
              (.block [.ret (.literal (Literal.number 1))])) env := rfl
        rw [hstep]
        exact ih env

/-- C2: the claim says a While statement stops iterating as soon as an
iteration of the body produces a return-tagged value, and propagates
that value upward.  In the code, `StatementType::While` only tests
for `LiteralType::Break`; a return-tagged body result is discarded
and the loop re-enters the condition.  For the program
`let i = 0; while (true) { i = i + 1; if (i == 2) { break; }
return 7; }` the first iteration produces the return-tagged 7, yet
the loop runs a second iteration (final `i` is 2, not 1) and the
statement sequence ends with the While's plain `None` result instead
of the propagated return value; and `while (true) { return 1; }`
never terminates at all. -/
theorem claim2_while_ignores_return :
    eval 99 (.stmts ex2Prog) [[]] =
      .ok (.lit Literal.noneLit, [[("i", Literal.number 2)]]) ∧
    (∀ fuel (env : EnvStack),
      eval fuel (.whileLoop (.literal (Literal.boolLit true))
        (.block [.ret (.literal (Literal.number 1))])) env =
      .error .noFuel) :=
  ⟨by with_unfolding_all rfl, whileTrueReturnDiverges⟩

/-- C3 counterexample: `map` does not check the tags of the mapped
function's results, so an operation of the language produces an Array
whose elements do not all share one tag: with
`fn g(x) { if (x == 0) { return 0; } return "s"; }`, the call
`map([0, 1], g)` returns an Array holding a Number and a String. -/
theorem claim3_map_heterogeneous_cex :
    eval 9 (.stmt (.fnDecl "g" ["x"] ex3GBody)) [globalEnv] =
      .ok (.lit Literal.noneLit, ex3Env) ∧
    eval 64 (.expr ex3Call) ex3Env = .ok (.lit ex3Result, ex3Env) ∧
    ex3Result.tag = .Array ∧ allSameTag ex3Result.arr = false := by
  refine ⟨rfl, by with_unfolding_all rfl, rfl, rfl⟩

/-- C4 counterexample: the claim says the right operand of a
short-circuiting `or` is not evaluated, so its errors cannot occur.
The code evaluates both operands before looking at the operator:
`true or (1 / 0)` dies with the division-by-zero diagnostic instead
of returning `true`. -/
theorem claim4_or_evaluates_right_cex :
    eval 9 (.expr (.logical (.literal (Literal.boolLit true))
      (.binary (.literal (Literal.number 1)) (.literal (Literal.number 0))
        .Slash) .Or)) [[]] =
      .error (.fatal "Division by zero occurs") := by
  with_unfolding_all rfl

/-- C5: the claim says a logical operator raises a fatal error when
either operand is neither Bool nor Null, and never yields such a
value.  The code's guard tests the LEFT literal twice
(`!is_truthy(&left_literal) || !is_truthy(&left_literal)`), so the
right operand is never type-checked: `false or 5` returns the Number
5.  This theorem evaluates the code at that failing input. -/
theorem claim5_or_right_operand_unchecked :
    eval 9 (.expr (.logical (.literal (Literal.boolLit false))
      (.literal (Literal.number 5)) .Or)) [[]] =
      .ok (.lit (Literal.number 5), [[]]) ∧
    (Literal.number 5).tag ≠ .Bool ∧ (Literal.number 5).tag ≠ .Null := by
  refine ⟨rfl, by decide, by decide⟩

/-- C6 counterexample: the claim says `a[i] = v` appends `v` whenever
`i` equals the current length N, for every N.  The code only permits
that push into an EMPTY array (N = 0, i = 0); on `[7]` (N = 1) the
assignment `a[1] = 8` is the fatal non-existent-index diagnostic,
both in the mutation step itself and end-to-end through the
evaluator. -/
theorem claim6_push_at_length_fatal_cex :
    arrayAssignApply (Literal.newArray [Literal.number 7]) 1
      (Literal.number 8) =
      .error (.fatal "Attempt to modify non-existent index in array") ∧
    eval 9 (.expr (.arrayAssign "a" (.literal (Literal.number 1))
      (.literal (Literal.number 8))))
      [[("a", Literal.newArray [Literal.number 7])]] =
      .error (.fatal "Attempt to modify non-existent index in array") := by
  refine ⟨rfl, by with_unfolding_all rfl⟩

end Ari

namespace Ari

@[simp] theorem exceptBindOk {α β : Type} (a : α) (f : α → Except Err β) :
    (Except.ok a >>= f) = f a := rfl

@[simp] theorem exceptBindError {α β : Type} (e : Err) (f : α → Except Err β) :
    ((Except.error e : Except Err α) >>= f) = .error e := rfl

@[simp] theorem asLitOk (l : Literal) (env : EnvStack) :
    asLit (.ok (.lit l, env)) = .ok (l, env) := rfl

@[simp] theorem asLitError (e : Err) : asLit (.error e) = .error e := rfl

@[simp] theorem asLitsOk (ls : List Literal) (env : EnvStack) :
    asLits (.ok (.lits ls, env)) = .ok (ls, env) := rfl

@[simp] theorem asLitsError (e : Err) : asLits (.error e) = .error e := rfl

@[simp] theorem asOptOk (o : Option Literal) (env : EnvStack) :
    asOpt (.ok (.optLit o, env)) = .ok (o, env) := rfl

@[simp] theorem asOptError (e : Err) : asOpt (.error e) = .error e := rfl

/-- The decreasing arm of `range`'s loop subtracts the (negative)
step, so the walker only grows: it never passes `end` and the loop
never exits. -/
theorem rangeLoopDecDiverges (fuel : Nat) :
    ∀ (s : Rat) (acc : List Literal), (1 : Rat) < s →
      rangeLoop fuel false s 1 (-1) acc = none := by
  induction fuel with
  | zero => intro s acc _; rfl
  | succ n ih =>
      intro s acc hs
      have hnot : ¬ (s - (-1) < (1 : Rat)) := by
        intro h; linarith
      simp only [rangeLoop, if_neg hnot]
      exact ih (s - (-1)) (acc ++ [Literal.number s]) (by linarith)

end Ari

namespace Ari

/-- The validations of `range(5, 1, -1)` all pass (non-zero negative
step for a decreasing range), after which the loop diverges. -/
theorem rangeNativeDiverges (fuel : Nat) :
    rangeNative fuel [Literal.number 5, Literal.number 1, Literal.number (-1)] =
      .error .noFuel := by
  have h := rangeLoopDecDiverges fuel 5 [] (by norm_num)
  norm_num [rangeNative, stringToFloat, Literal.number, Literal.newValue,
    Literal.tag, Literal.val, h]

/-- C7: the claim says a validated decreasing `range(start, end, step)`
call (start > end, step < 0) terminates with the inclusive array.
The code's loop subtracts the step in the decreasing branch
(`start_float -= step_float` with a negative step), so the walker
grows away from `end` and the loop never exits: for `range(5, 1, -1)`
evaluation never completes, for every fuel bound. -/
theorem claim7_range_decreasing_diverges :
    (∀ fuel (s : Rat) (acc : List Literal), (1 : Rat) < s →
        rangeLoop fuel false s 1 (-1) acc = none) ∧
    (∀ fuel, rangeNative fuel
        [Literal.number 5, Literal.number 1, Literal.number (-1)] =
        .error .noFuel) ∧
    (∀ fuel env, eval (fuel + 1)
        (.callNat .Range
          [Literal.number 5, Literal.number 1, Literal.number (-1)]) env =
        .error .noFuel) := by
  refine ⟨fun fuel s acc h => rangeLoopDecDiverges fuel s acc h,
          fun fuel => rangeNativeDiverges fuel, ?_⟩
  intro fuel env
  simp [eval, rangeNativeDiverges fuel]

/-- Witness for C7: the divergence theorem applied at concrete fuel. -/
theorem claim7_range_witness :
    rangeLoop 3 false 5 1 (-1) [] = none ∧
    rangeNative 7 [Literal.number 5, Literal.number 1, Literal.number (-1)] =
      .error .noFuel :=
  ⟨claim7_range_decreasing_diverges.1 3 5 [] (by decide),
   claim7_range_decreasing_diverges.2.1 7⟩

end Ari

namespace Ari

theorem ratTruncZero : ratTrunc 0 = 0 := by
  simp [ratTrunc]

theorem divideZero (x : Rat) : divide x 0 = none := by
  simp [divide, ratTruncZero]

/-- A zero among the divisor elements aborts the element-wise collect
with the fatal diagnostic. -/
theorem zipDivideZeroMem :
    ∀ (xs ys : List Rat), xs.length = ys.length → (0 : Rat) ∈ ys →
      zipDivide (xs.map Literal.number) (ys.map Literal.number) =
        .error (.fatal "Division by zero in one of the array elements occurs") := by
  intro xs ys
  induction ys generalizing xs with
  | nil => intro _ h; simp at h
  | cons y ys' ih =>
      intro hlen hmem
      cases xs with
      | nil => simp at hlen
      | cons x xs' =>
          simp only [List.map_cons, zipDivide, stringToFloat, Literal.number,
            Literal.newValue, Literal.val, exceptBindOk]
          by_cases hz : ratTrunc y = 0
          · simp [divide, hz]
          · have hy : y ≠ 0 := fun h => hz (h ▸ ratTruncZero)
            have hmem' : (0 : Rat) ∈ ys' := by
              rcases List.mem_cons.mp hmem with h | h
              · exact absurd h.symm hy
              · exact h
            simp [divide, hz, ih xs' (by simpa using hlen) hmem']

theorem arrayDivZero (xs ys : List Rat) (hlen : xs.length = ys.length)
    (hmem : (0 : Rat) ∈ ys) :
    arrayDivOp (Literal.newArray (xs.map Literal.number))
      (Literal.newArray (ys.map Literal.number)) =
      .error (.fatal "Division by zero in one of the array elements occurs") := by
  cases ys with
  | nil => simp at hmem
  | cons y ys' =>
      cases xs with
      | nil => simp at hlen
      | cons x xs' =>
          have hlen' : xs'.length = ys'.length := by simpa using hlen
          have hz := zipDivideZeroMem (x :: xs') (y :: ys') hlen hmem
          simp only [List.map_cons, Literal.number, Literal.newValue] at hz
          simp [arrayDivOp, Literal.newArray, Literal.arr, Literal.number,
            Literal.newValue, Literal.tag, hlen', hz]

theorem slashNumberZero (x : Rat) :
    evalBinary .Slash (Literal.number x) (Literal.number 0) =
      .error (.fatal "Division by zero occurs") := by
  simp [evalBinary, isValidArithmetic, Literal.number, Literal.newValue,
    Literal.tag, stringToFloat, Literal.val, divideZero]

/-- C9: division of a Number by the Number 0 is the fatal
division-by-zero diagnostic, and element-wise division of Number
arrays with a 0 among the divisor elements is the fatal array
variant; neither produces a value.  Stated for the binary-operator
dispatch `evalBinary` and end-to-end through the evaluator. -/
theorem claim9_division_by_zero_fatal :
    (∀ x : Rat, evalBinary .Slash (Literal.number x) (Literal.number 0) =
        .error (.fatal "Division by zero occurs")) ∧
    (∀ (xs ys : List Rat), xs.length = ys.length → (0 : Rat) ∈ ys →
        evalBinary .Slash (Literal.newArray (xs.map Literal.number))
          (Literal.newArray (ys.map Literal.number)) =
          .error (.fatal "Division by zero in one of the array elements occurs")) ∧
    (∀ fuel env (x : Rat), eval (fuel + 2)
        (.expr (.binary (.literal (Literal.number x))
          (.literal (Literal.number 0)) .Slash)) env =
        .error (.fatal "Division by zero occurs")) := by
  refine ⟨slashNumberZero, ?_, ?_⟩
  · intro xs ys hlen hmem
    have hd := arrayDivZero xs ys hlen hmem
    simp only [Literal.newArray] at hd
    simp [evalBinary, isValidArithmetic, Literal.newArray, Literal.tag, hd]
  · intro fuel env x
    simp [eval, slashNumberZero x]

/-- Witness for C9: the theorem applied at `3 / 0` and `[4] / [0]`. -/
theorem claim9_division_witness :
    evalBinary .Slash (Literal.number 3) (Literal.number 0) =
      .error (.fatal "Division by zero occurs") ∧
    evalBinary .Slash (Literal.newArray [Literal.number 4])
      (Literal.newArray [Literal.number 0]) =
      .error (.fatal "Division by zero in one of the array elements occurs") :=
  ⟨claim9_division_by_zero_fatal.1 3,
   claim9_division_by_zero_fatal.2.1 [4] [0] rfl (by decide)⟩

end Ari

namespace Ari

/-- C10: `Statement::print` builds the array summary header from
`literal.array_values.get(0).unwrap()`, unconditionally.  For the
empty Array (a legal value: empty array literals evaluate fine) that
read has no value, so printing cannot complete normally and no
summary text exists; end-to-end, `println []` aborts instead of
printing.  A non-empty Array does produce the documented summary. -/
theorem claim10_print_empty_array :
    (∀ l : Literal, l.tag = .Array → l.arr = [] → printLiteral l = none) ∧
    (eval 9 (.stmt (.println (.arrayCreation []))) [[]] = .error .panicErr) ∧
    (∀ l : Literal, l.tag = .Array → l.arr ≠ [] →
      (printLiteral l).isSome = true) := by
  refine ⟨?_, rfl, ?_⟩
  · intro l ht ha
    simp [printLiteral, ht, ha]
  · intro l ht ha
    match h : l.arr with
    | [] => exact absurd h ha
    | a :: rest => simp [printLiteral, ht, h]

/-- Witness for C10: the theorem applied to the empty and a singleton
array value. -/
theorem claim10_print_witness :
    printLiteral (Literal.newArray []) = none ∧
    (printLiteral (Literal.newArray [Literal.number 1])).isSome = true :=
  ⟨claim10_print_empty_array.1 (Literal.newArray []) rfl rfl,
   claim10_print_empty_array.2.2 (Literal.newArray [Literal.number 1]) rfl
     (by simp [Literal.newArray, Literal.arr])⟩

end Ari

namespace Ari

@[simp] theorem exceptMapOk {α β : Type} (f : α → β) (a : α) :
    (Except.ok a : Except Err α).map f = .ok (f a) := rfl

@[simp] theorem exceptMapError {α β : Type} (f : α → β) (e : Err) :
    (Except.error e : Except Err α).map f = .error e := rfl

/-- When no frame contains the name, `assign_variable` reaches the
bottom of the stack and fails. -/
theorem assignVariableAbsent (S : EnvStack) (n : String) (v : Literal)
    (h : ∀ f ∈ S, Env.containsKey f n = false) :
    EnvStack.assignVariable S n v = none := by
  induction S with
  | nil => rfl
  | cons f rest ih =>
      have hf := h f (List.mem_cons_self f rest)
      have hrest := ih (fun g hg => h g (List.mem_cons_of_mem f hg))
      simp [EnvStack.assignVariable, hf, hrest]

/-- `assign_variable` overwrites the innermost frame that contains
the name, leaving every other frame unchanged (and creating no new
binding anywhere). -/
theorem assignVariableFirst (pre : EnvStack) (frame : Env) (post : EnvStack)
    (n : String) (v : Literal)
    (hpre : ∀ f ∈ pre, Env.containsKey f n = false)
    (hf : Env.containsKey frame n = true) :
    EnvStack.assignVariable (pre ++ frame :: post) n v =
      some (pre ++ Env.defineVar frame n v :: post) := by
  induction pre with
  | nil => simp [EnvStack.assignVariable, hf]
  | cons f rest ih =>
      have h1 := hpre f (List.mem_cons_self f rest)
      have h2 := ih (fun g hg => hpre g (List.mem_cons_of_mem f hg))
      simp [EnvStack.assignVariable, h1, h2]

end Ari

namespace Ari

/-- C8: assignment walks the environment stack from the innermost
frame to the global frame and overwrites the value in the first frame
that already contains the name (leaving all other frames untouched
and never creating a binding); when no frame contains the name the
assignment is the fatal variable-cannot-be-found diagnostic; and the
binding a `let` performs inside a block targets only the block's own
frame, so the surrounding stack is exactly restored when the block
exits. -/
theorem claim8_assignment_walk_and_scope :
    (∀ (S : EnvStack) (n : String) (v : Literal),
      (∀ f ∈ S, Env.containsKey f n = false) →
      EnvStack.assignVariable S n v = none) ∧
    (∀ (pre : EnvStack) (frame : Env) (post : EnvStack) (n : String)
        (v : Literal),
      (∀ f ∈ pre, Env.containsKey f n = false) →
      Env.containsKey frame n = true →
      EnvStack.assignVariable (pre ++ frame :: post) n v =
        some (pre ++ Env.defineVar frame n v :: post)) ∧
    (∀ (S : EnvStack) (n : String) (v : Literal) fuel,
      (∀ f ∈ S, Env.containsKey f n = false) →
      eval (fuel + 2) (.expr (.assign n (.literal v))) S =
        .error (.fatal "variable cannot be found in this scope")) ∧
    (∀ fuel (x : String) (v : Literal) (env : EnvStack),
      (v.tag = .Function → v.func ≠ none) →
      (eval (fuel + 4) (.stmt (.block [.letS x (.literal v)])) env).map
        Prod.snd = .ok env) := by
  refine ⟨assignVariableAbsent, assignVariableFirst, ?_, ?_⟩
  · intro S n v fuel h
    have ha := assignVariableAbsent S n v h
    simp [eval, ha]
  · intro fuel x v env hv
    obtain ⟨t, vl, a, fo, r⟩ := v
    have hfo : t = LType.Function → fo ≠ none := by
      intro h hn
      subst h; subst hn
      exact (hv (by simp [Literal.tag])) (by simp [Literal.func])
    clear hv
    cases t
    case Function =>
      cases fo with
      | none => exact absurd rfl (hfo rfl)
      | some g =>
          obtain ⟨gt, gp, gb, gn, gc, gv⟩ := g
          cases r <;>
            simp [eval, Literal.tag, Literal.isRet, Literal.setFuncVarTok,
              EnvStack.createEnv, EnvStack.defineTop, EnvStack.destroyEnv]
    all_goals
      cases r <;>
        simp [eval, Literal.tag, Literal.isRet, Literal.setFuncVarTok,
          EnvStack.createEnv, EnvStack.defineTop, EnvStack.destroyEnv]

/-- Witness for C8: the theorem applied to concrete stacks — a
missing name fails, the innermost containing frame is the one
overwritten, and a block-local `let` leaves the outer stack as it
was. -/
theorem claim8_assignment_witness :
    EnvStack.assignVariable [[("y", Literal.nullLit)]] "x"
      (Literal.number 9) = none ∧
    EnvStack.assignVariable [[], [("x", Literal.nullLit)]] "x"
      (Literal.number 9) = some [[], [("x", Literal.number 9)]] ∧
    eval 2 (.expr (.assign "x" (.literal (Literal.number 9))))
      [[("y", Literal.nullLit)]] =
      .error (.fatal "variable cannot be found in this scope") ∧
    (eval 4 (.stmt (.block [.letS "x" (.literal (Literal.number 3))]))
      [[("a", Literal.number 1)]]).map Prod.snd =
      .ok [[("a", Literal.number 1)]] :=
  ⟨claim8_assignment_walk_and_scope.1 _ _ _ (by decide),
   claim8_assignment_walk_and_scope.2.1 [[]] [("x", Literal.nullLit)] []
     "x" (Literal.number 9) (by decide) (by decide),
   claim8_assignment_walk_and_scope.2.2.1 _ "x" (Literal.number 9) 0
     (by decide),
   claim8_assignment_walk_and_scope.2.2.2 0 "x" (Literal.number 3) _
     (fun h => LType.noConfusion h)⟩

end Ari

namespace Ari

/-- C4 amended: both operands of a logical expression are always
evaluated, left then right (so side effects and errors of the right
operand do occur — see the counterexample); the operator then
returns the first short-circuiting operand — the left operand of
`or` when it is true, the left operand of `and` when it is false or
null — and otherwise the right operand.  The last conjunct shows the
right operand's side effect (an assignment) happening even though
the left operand is returned. -/
theorem claim4_logical_value_selection :
    (∀ R : Literal, evalLogical .Or (Literal.boolLit true) R =
      .ok (Literal.boolLit true)) ∧
    (∀ (L R : Literal), L = Literal.boolLit false ∨ L = Literal.nullLit →
      evalLogical .Or L R = .ok R) ∧
    (∀ (L R : Literal), L = Literal.boolLit false ∨ L = Literal.nullLit →
      evalLogical .And L R = .ok L) ∧
    (∀ R : Literal, evalLogical .And (Literal.boolLit true) R = .ok R) ∧
    (eval 9 (.expr (.logical (.literal (Literal.boolLit true))
      (.assign "x" (.literal (Literal.number 5))) .Or))
      [[("x", Literal.number 0)]] =
      .ok (.lit (Literal.boolLit true), [[("x", Literal.number 5)]])) := by
  refine ⟨fun R => rfl, ?_, ?_, fun R => rfl, rfl⟩
  · intro L R h
    rcases h with h | h <;> subst h <;> rfl
  · intro L R h
    rcases h with h | h <;> subst h <;> rfl

/-- Witness for C4: the selection theorem applied at concrete
operands. -/
theorem claim4_logical_witness :
    evalLogical .Or (Literal.boolLit true) (Literal.number 7) =
      .ok (Literal.boolLit true) ∧
    evalLogical .Or (Literal.boolLit false) (Literal.stringLit "s") =
      .ok (Literal.stringLit "s") ∧
    evalLogical .And Literal.nullLit (Literal.number 7) =
      .ok Literal.nullLit ∧
    evalLogical .And (Literal.boolLit true) (Literal.number 3) =
      .ok (Literal.number 3) :=
  ⟨claim4_logical_value_selection.1 (Literal.number 7),
   claim4_logical_value_selection.2.1 _ (Literal.stringLit "s") (Or.inl rfl),
   claim4_logical_value_selection.2.2.1 _ (Literal.number 7) (Or.inr rfl),
   claim4_logical_value_selection.2.2.2.1 (Literal.number 3)⟩

end Ari

namespace Ari

theorem intTdivOne (a : Int) : a.tdiv 1 = a := by
  cases a with
  | ofNat m => simp [Int.tdiv]
  | negSucc m => simp [Int.tdiv, Int.negSucc_eq]

theorem ratTruncNatCast (k : Nat) : ratTrunc (k : Rat) = k := by
  simp [ratTrunc, intTdivOne]

/-- A natural-number index literal passes the index validation. -/
theorem indexCheckNat (k : Nat) :
    indexCheckCore (Literal.number k) = .ok (k : Int) := by
  simp [indexCheckCore, Literal.number, Literal.newValue, Literal.tag,
    stringToFloat, Literal.val, ratTruncNatCast]

theorem indexCheckZero : indexCheckCore (Literal.number 0) = .ok 0 := by
  simp [indexCheckCore, Literal.number, Literal.newValue, Literal.tag,
    stringToFloat, Literal.val, ratTruncZero]

theorem c6Replace (fuel : Nat) (arr : List Literal) (k : Nat) (v a0 : Literal)
    (h0 : arr.head? = some a0) (hk : k < arr.length) (hv : v.tag = a0.tag) :
    eval (fuel + 2) (.expr (.arrayAssign "a" (.literal (Literal.number k))
      (.literal v))) [[("a", Literal.newArray arr)]] =
      .ok (.lit Literal.noneLit, [[("a", Literal.newArray (arr.set k v))]]) := by
  cases arr with
  | nil => simp at hk
  | cons a rest =>
      obtain rfl : a = a0 := by simpa using h0
      obtain ⟨vt, vv, va, vf, vr⟩ := v
      obtain ⟨bt, bv, ba, bf, br⟩ := a
      simp [Literal.tag] at hv
      subst hv
      simp [eval, EnvStack.getVariable, Env.getVal, Literal.newArray,
        Literal.tag, indexCheckNat, Literal.arr, arrayAssignApply,
        List.getElem?_eq_getElem hk, Literal.setArr, Literal.val,
        Literal.func, Literal.isRet, EnvStack.assignVariable,
        Env.containsKey, Env.defineVar]

theorem c6PushEmpty (fuel : Nat) (v : Literal) :
    eval (fuel + 2) (.expr (.arrayAssign "a" (.literal (Literal.number 0))
      (.literal v))) [[("a", Literal.newArray [])]] =
      .ok (.lit Literal.noneLit, [[("a", Literal.newArray [v])]]) := by
  simp [eval, EnvStack.getVariable, Env.getVal, Literal.newArray,
    Literal.tag, indexCheckZero, Literal.arr, arrayAssignApply,
    Literal.setArr, Literal.val, Literal.func, Literal.isRet,
    EnvStack.assignVariable, Env.containsKey, Env.defineVar]

theorem c6EmptyNonzero (fuel : Nat) (k : Nat) (v : Literal) (hk : k ≠ 0) :
    eval (fuel + 2) (.expr (.arrayAssign "a" (.literal (Literal.number k))
      (.literal v))) [[("a", Literal.newArray [])]] =
      .error (.fatal "Attempt to modify empty array with this index. Can only modify with index 0") := by
  simp [eval, EnvStack.getVariable, Env.getVal, Literal.newArray,
    Literal.tag, indexCheckNat, Literal.arr, arrayAssignApply,
    Literal.setArr, hk]

theorem c6Beyond (fuel : Nat) (arr : List Literal) (k : Nat) (v : Literal)
    (hne : arr ≠ []) (hk : arr.length ≤ k) :
    eval (fuel + 2) (.expr (.arrayAssign "a" (.literal (Literal.number k))
      (.literal v))) [[("a", Literal.newArray arr)]] =
      .error (.fatal "Attempt to modify non-existent index in array") := by
  cases arr with
  | nil => exact absurd rfl hne
  | cons a rest =>
      simp [eval, EnvStack.getVariable, Env.getVal, Literal.newArray,
        Literal.tag, indexCheckNat, Literal.arr, arrayAssignApply,
        List.getElem?_eq_none hk]

/-- C6 amended: for an array variable `a` of current length N and a
non-negative integer index i, the assignment `a[i] = v` replaces the
element when i < N (with the new element's tag matching element 0's
tag); the single permitted "push" exists only for the EMPTY array
(N = 0, i = 0); every other index — in particular i == N whenever
N ≥ 1, the case the original claim asserted — is fatal. -/
theorem claim6_array_assign_amended :
    (∀ fuel (arr : List Literal) (k : Nat) (v a0 : Literal),
      arr.head? = some a0 → k < arr.length → v.tag = a0.tag →
      eval (fuel + 2) (.expr (.arrayAssign "a" (.literal (Literal.number k))
        (.literal v))) [[("a", Literal.newArray arr)]] =
        .ok (.lit Literal.noneLit, [[("a", Literal.newArray (arr.set k v))]])) ∧
    (∀ fuel (v : Literal),
      eval (fuel + 2) (.expr (.arrayAssign "a" (.literal (Literal.number 0))
        (.literal v))) [[("a", Literal.newArray [])]] =
        .ok (.lit Literal.noneLit, [[("a", Literal.newArray [v])]])) ∧
    (∀ fuel (k : Nat) (v : Literal), k ≠ 0 →
      eval (fuel + 2) (.expr (.arrayAssign "a" (.literal (Literal.number k))
        (.literal v))) [[("a", Literal.newArray [])]] =
        .error (.fatal "Attempt to modify empty array with this index. Can only modify with index 0")) ∧
    (∀ fuel (arr : List Literal) (k : Nat) (v : Literal),
      arr ≠ [] → arr.length ≤ k →
      eval (fuel + 2) (.expr (.arrayAssign "a" (.literal (Literal.number k))
        (.literal v))) [[("a", Literal.newArray arr)]] =
        .error (.fatal "Attempt to modify non-existent index in array")) :=
  ⟨c6Replace, c6PushEmpty, c6EmptyNonzero, c6Beyond⟩

/-- Witness for C6: the amended theorem applied at concrete arrays —
replace inside `[7]`, push into `[]` at 0, index 2 on `[]` fatal, and
index 1 on `[7]` (i == N with N == 1) fatal. -/
theorem claim6_array_assign_witness :
    eval 2 (.expr (.arrayAssign "a" (.literal (Literal.number 0))
      (.literal (Literal.number 8))))
      [[("a", Literal.newArray [Literal.number 7])]] =
      .ok (.lit Literal.noneLit, [[("a", Literal.newArray [Literal.number 8])]]) ∧
    eval 2 (.expr (.arrayAssign "a" (.literal (Literal.number 0))
      (.literal (Literal.number 8)))) [[("a", Literal.newArray [])]] =
      .ok (.lit Literal.noneLit, [[("a", Literal.newArray [Literal.number 8])]]) ∧
    eval 2 (.expr (.arrayAssign "a" (.literal (Literal.number 2))
      (.literal (Literal.number 8)))) [[("a", Literal.newArray [])]] =
      .error (.fatal "Attempt to modify empty array with this index. Can only modify with index 0") ∧
    eval 2 (.expr (.arrayAssign "a" (.literal (Literal.number 1))
      (.literal (Literal.number 8))))
      [[("a", Literal.newArray [Literal.number 7])]] =
      .error (.fatal "Attempt to modify non-existent index in array") :=
  ⟨claim6_array_assign_amended.1 0 [Literal.number 7] 0 (Literal.number 8)
     (Literal.number 7) rfl (by decide) rfl,
   claim6_array_assign_amended.2.1 0 (Literal.number 8),
   claim6_array_assign_amended.2.2.1 0 2 (Literal.number 8) (by decide),
   claim6_array_assign_amended.2.2.2 0 [Literal.number 7] 1 (Literal.number 8)
     (fun h => List.noConfusion h) (by decide)⟩

end Ari

namespace Ari

theorem allTagAllSame (t : LType) (l : List Literal) (h : allTag t l = true) :
    allSameTag l = true := by
  cases l with
  | nil => rfl
  | cons a rest =>
      simp only [allTag, List.all_cons, List.all_eq_true, Bool.and_eq_true,
        beq_iff_eq] at h
      simp only [allSameTag, allTag, List.all_eq_true, beq_iff_eq]
      intro x hx
      rw [h.2 x hx, h.1]

theorem arrElemsAllTag :
    ∀ fuel (rest : List Expr) (vt : LType) (acc : List Literal)
      (env : EnvStack) (l : Literal) (env' : EnvStack),
      allTag vt acc = true →
      eval fuel (.arrElems rest vt acc) env = .ok (.lit l, env') →
      allTag vt l.arr = true := by
  intro fuel
  induction fuel with
  | zero =>
      intro rest vt acc env l env' _ h
      simp [eval] at h
  | succ n ih =>
      intro rest vt acc env l env' hacc h
      cases rest with
      | nil =>
          simp only [eval] at h
          simp only [Except.ok.injEq, Prod.mk.injEq, Out.lit.injEq] at h
          obtain ⟨hl, _⟩ := h
          subst hl
          simpa [Literal.newArray, Literal.arr] using hacc
      | cons x xs =>
          simp only [eval] at h
          cases hx : eval n (.expr x) env with
          | error e => rw [hx] at h; simp at h
          | ok p =>
              obtain ⟨o, env1⟩ := p
              rw [hx] at h
              cases o with
              | lit v =>
                  simp only [asLitOk, exceptBindOk] at h
                  by_cases hv : v.tag ≠ vt
                  · rw [if_pos hv] at h; simp at h
                  · rw [if_neg hv] at h
                    push_neg at hv
                    have hacc' : allTag vt (acc ++ [v]) = true := by
                      simp only [allTag, List.all_append, List.all_cons,
                        List.all_nil, Bool.and_eq_true, beq_iff_eq] at hacc ⊢
                      exact ⟨hacc, hv, trivial⟩
                    exact ih xs vt (acc ++ [v]) env1 l env' hacc' h
              | lits ls => simp [asLit] at h
              | optLit o2 => simp [asLit] at h
              | unit => simp [asLit] at h

theorem arrayCreationHomog (fuel : Nat) (elems : List Expr) (env : EnvStack)
    (l : Literal) (env' : EnvStack)
    (h : eval fuel (.expr (.arrayCreation elems)) env = .ok (.lit l, env')) :
    allSameTag l.arr = true := by
  cases fuel with
  | zero => simp [eval] at h
  | succ n =>
      cases elems with
      | nil =>
          simp only [eval] at h
          simp only [Except.ok.injEq, Prod.mk.injEq, Out.lit.injEq] at h
          obtain ⟨hl, _⟩ := h
          subst hl
          rfl
      | cons x xs =>
          simp only [eval] at h
          cases hx : eval n (.expr x) env with
          | error e => rw [hx] at h; simp at h
          | ok p =>
              obtain ⟨o, env1⟩ := p
              rw [hx] at h
              cases o with
              | lit v =>
                  simp only [asLitOk, exceptBindOk] at h
                  have := arrElemsAllTag n xs v.tag [v] env1 l env'
                    (by simp [allTag]) h
                  exact allTagAllSame _ _ this
              | lits ls => simp [asLit] at h
              | optLit o2 => simp [asLit] at h
              | unit => simp [asLit] at h

end Ari
namespace Ari

theorem splitHomog (args : List Literal) (l : Literal)
    (h : splitNative args = .ok l) : allSameTag l.arr = true := by
  match args with
  | [] => simp [splitNative] at h
  | [a] => simp [splitNative] at h
  | a :: b :: c :: r => simp [splitNative] at h
  | [source, delim] =>
      simp only [splitNative] at h
      split at h
      · simp at h
      · split at h
        · simp at h
        · split at h
          · simp only [Except.ok.injEq] at h
            subst h
            refine allTagAllSame .String _ ?_
            simp [allTag, List.all_map, Literal.stringLit, Literal.newValue,
              Literal.newArray, Literal.arr, Literal.tag, Function.comp]
          · simp at h

theorem allSameTagReplicate (n : Nat) (v : Literal) :
    allSameTag (List.replicate n v) = true := by
  cases n with
  | zero => rfl
  | succ m =>
      refine allTagAllSame v.tag _ ?_
      simp only [allTag, List.all_eq_true, beq_iff_eq]
      intro x hx
      rw [List.eq_of_mem_replicate hx]

theorem repeatHomog (args : List Literal) (l : Literal)
    (h : repeatNative args = .ok l) : allSameTag l.arr = true := by
  match args with
  | [] => simp [repeatNative] at h
  | [a] => simp [repeatNative] at h
  | a :: b :: c :: r => simp [repeatNative] at h
  | [v, cnt] =>
      simp only [repeatNative] at h
      split at h
      · simp at h
      · cases hf : stringToFloat cnt with
        | error e => rw [hf] at h; simp at h
        | ok q =>
            rw [hf] at h
            simp only [exceptBindOk] at h
            split at h
            · simp at h
            · split at h
              · simp at h
              · simp only [Except.ok.injEq] at h
                subst h
                simpa [Literal.newArray, Literal.arr] using
                  allSameTagReplicate _ v

end Ari
namespace Ari

theorem filterLoopAllTag :
    ∀ fuel (f : Func) (src acc : List Literal) (env : EnvStack)
      (ls : List Literal) (env' : EnvStack) (vt : LType),
      allTag vt src = true → allTag vt acc = true →
      eval fuel (.filterLoop f src acc) env = .ok (.lits ls, env') →
      allTag vt ls = true := by
  intro fuel
  induction fuel with
  | zero =>
      intro f src acc env ls env' vt _ _ h
      simp [eval] at h
  | succ n ih =>
      intro f src acc env ls env' vt hsrc hacc h
      cases src with
      | nil =>
          simp only [eval] at h
          simp only [Except.ok.injEq, Prod.mk.injEq, Out.lits.injEq] at h
          obtain ⟨hl, _⟩ := h
          subst hl
          exact hacc
      | cons x xs =>
          have hx1 : x.tag = vt ∧ allTag vt xs = true := by
            simpa [allTag, Bool.and_eq_true, beq_iff_eq] using hsrc
          simp only [eval] at h
          cases hc : eval n (.callF f [x]) env with
          | error e => rw [hc] at h; simp at h
          | ok p =>
              obtain ⟨o, env1⟩ := p
              rw [hc] at h
              cases o with
              | optLit r =>
                  simp only [asOptOk, exceptBindOk] at h
                  split at h
                  · simp at h
                  · rename_i v
                    split at h
                    · simp at h
                    · rename_i keep hkeep
                      cases keep with
                      | false =>
                          rw [if_neg (by decide)] at h
                          exact ih f xs acc env1 ls env' vt hx1.2 hacc h
                      | true =>
                          rw [if_pos (by decide)] at h
                          have hacc' : allTag vt (acc ++ [x]) = true := by
                            simp only [allTag, List.all_append, List.all_cons,
                              List.all_nil, Bool.and_eq_true, beq_iff_eq]
                              at hacc ⊢
                            exact ⟨hacc, hx1.1, trivial⟩
                          exact ih f xs (acc ++ [x]) env1 ls env' vt
                            hx1.2 hacc' h
              | lit v => simp [asOpt] at h
              | lits l2 => simp [asOpt] at h
              | unit => simp [asOpt] at h

end Ari
namespace Ari

theorem filterHomog (fuel : Nat) (source ff : Literal) (env : EnvStack)
    (l : Literal) (env' : EnvStack) (vt : LType)
    (hsrc : allTag vt source.arr = true)
    (h : eval fuel (.callNat .Filter [source, ff]) env = .ok (.lit l, env')) :
    allTag vt l.arr = true := by
  obtain ⟨st, sv, sa, sf, sr⟩ := source
  simp only [Literal.arr] at hsrc
  cases fuel with
  | zero => simp [eval] at h
  | succ n =>
      cases sa with
      | nil =>
          simp only [eval, Literal.arr] at h
          split at h
          · simp at h
          · split at h
            · simp at h
            · split at h
              · simp at h
              · rename_i f hf
                split at h
                · simp at h
                · cases hfl : eval n (.filterLoop f [] []) env with
                  | error e => rw [hfl] at h; simp at h
                  | ok p =>
                      obtain ⟨o, env1⟩ := p
                      rw [hfl] at h
                      cases o with
                      | lits ls =>
                          simp only [asLitsOk, exceptBindOk, Except.ok.injEq,
                            Prod.mk.injEq, Out.lit.injEq] at h
                          obtain ⟨hl, _⟩ := h
                          subst hl
                          have := filterLoopAllTag n f [] [] env ls env1 vt
                            (by simp [allTag]) (by simp [allTag]) hfl
                          simpa [Literal.newArray, Literal.arr] using this
                      | lit v => simp [asLits] at h
                      | optLit r => simp [asLits] at h
                      | unit => simp [asLits] at h
      | cons a0 rest =>
          have hsrc' : allTag vt (a0 :: rest) = true := hsrc
          simp only [eval, Literal.arr] at h
          split at h
          · simp at h
          · split at h
            · simp at h
            · split at h
              · simp at h
              · rename_i f hf
                split at h
                · simp at h
                · cases hc : eval n (.callF f [a0]) env with
                  | error e => rw [hc] at h; simp at h
                  | ok p =>
                      obtain ⟨o, env1⟩ := p
                      rw [hc] at h
                      cases o with
                      | optLit r =>
                          simp only [asOptOk, exceptBindOk] at h
                          split at h
                          · simp at h
                          · rename_i l0
                            split at h
                            · simp at h
                            · cases hfl : eval n
                                  (.filterLoop f (a0 :: rest) []) env1 with
                              | error e => rw [hfl] at h; simp at h
                              | ok p2 =>
                                  obtain ⟨o2, env2⟩ := p2
                                  rw [hfl] at h
                                  cases o2 with
                                  | lits ls =>
                                      simp only [asLitsOk, exceptBindOk,
                                        Except.ok.injEq, Prod.mk.injEq,
                                        Out.lit.injEq] at h
                                      obtain ⟨hl, _⟩ := h
                                      subst hl
                                      have := filterLoopAllTag n f
                                        (a0 :: rest) [] env1 ls env2 vt
                                        hsrc' (by simp [allTag]) hfl
                                      simpa [Literal.newArray,
                                        Literal.arr] using this
                                  | lit v => simp [asLits] at h
                                  | optLit r2 => simp [asLits] at h
                                  | unit => simp [asLits] at h
                      | lit v => simp [asOpt] at h
                      | lits l2 => simp [asOpt] at h
                      | unit => simp [asOpt] at h

end Ari
namespace Ari

theorem zipNumOpHomog (f : Rat → Rat → Rat) :
    ∀ (xs ys vs : List Literal), zipNumOp f xs ys = .ok vs →
      allTag .Number vs = true := by
  intro xs
  induction xs with
  | nil =>
      intro ys vs h
      simp only [zipNumOp, Except.ok.injEq] at h
      subst h
      rfl
  | cons a as ih =>
      intro ys vs h
      cases ys with
      | nil =>
          simp only [zipNumOp, Except.ok.injEq] at h
          subst h
          rfl
      | cons b bs =>
          simp only [zipNumOp] at h
          cases ha : stringToFloat a with
          | error e => rw [ha] at h; simp at h
          | ok av =>
              rw [ha] at h
              cases hb : stringToFloat b with
              | error e => rw [hb] at h; simp at h
              | ok bv =>
                  rw [hb] at h
                  simp only [exceptBindOk] at h
                  cases hr : zipNumOp f as bs with
                  | error e => rw [hr] at h; simp at h
                  | ok rest =>
                      rw [hr] at h
                      simp only [exceptBindOk, Except.ok.injEq] at h
                      subst h
                      simp only [allTag, List.all_cons, Bool.and_eq_true,
                        beq_iff_eq]
                      exact ⟨by simp [Literal.number, Literal.newValue,
                        Literal.tag], ih bs rest hr⟩

theorem zipDivideHomog :
    ∀ (xs ys vs : List Literal), zipDivide xs ys = .ok vs →
      allTag .Number vs = true := by
  intro xs
  induction xs with
  | nil =>
      intro ys vs h
      simp only [zipDivide, Except.ok.injEq] at h
      subst h
      rfl
  | cons a as ih =>
      intro ys vs h
      cases ys with
      | nil =>
          simp only [zipDivide, Except.ok.injEq] at h
          subst h
          rfl
      | cons b bs =>
          simp only [zipDivide] at h
          cases ha : stringToFloat a with
          | error e => rw [ha] at h; simp at h
          | ok av =>
              rw [ha] at h
              cases hb : stringToFloat b with
              | error e => rw [hb] at h; simp at h
              | ok bv =>
                  rw [hb] at h
                  simp only [exceptBindOk] at h
                  split at h
                  · rename_i v
                    cases hr : zipDivide as bs with
                    | error e => rw [hr] at h; simp at h
                    | ok rest =>
                        rw [hr] at h
                        simp only [exceptBindOk, Except.ok.injEq] at h
                        subst h
                        simp only [allTag, List.all_cons, Bool.and_eq_true,
                          beq_iff_eq]
                        exact ⟨by simp [Literal.number, Literal.newValue,
                          Literal.tag], ih bs rest hr⟩
                  · simp at h

theorem zipAddHomog (c : Bool) :
    ∀ (xs ys vs : List Literal), zipAdd c xs ys = .ok vs →
      allTag (if c then .String else .Number) vs = true := by
  intro xs
  induction xs with
  | nil =>
      intro ys vs h
      simp only [zipAdd, Except.ok.injEq] at h
      subst h
      rfl
  | cons a as ih =>
      intro ys vs h
      cases ys with
      | nil =>
          simp only [zipAdd, Except.ok.injEq] at h
          subst h
          rfl
      | cons b bs =>
          simp only [zipAdd] at h
          cases hv : addLit a b c with
          | error e => rw [hv] at h; simp at h
          | ok v =>
              rw [hv] at h
              simp only [exceptBindOk] at h
              cases hr : zipAdd c as bs with
              | error e => rw [hr] at h; simp at h
              | ok rest =>
                  rw [hr] at h
                  simp only [exceptBindOk, Except.ok.injEq] at h
                  subst h
                  have hvt : v.tag = (if c then LType.String else .Number) := by
                    cases c with
                    | true =>
                        simp only [addLit] at hv
                        rw [if_pos trivial] at hv
                        simp only [Except.ok.injEq] at hv
                        subst hv
                        rfl
                    | false =>
                        simp only [addLit] at hv
                        rw [if_neg (by simp)] at hv
                        cases ha : stringToFloat a with
                        | error e => rw [ha] at hv; simp at hv
                        | ok av =>
                            rw [ha] at hv
                            cases hb : stringToFloat b with
                            | error e => rw [hb] at hv; simp at hv
                            | ok bv =>
                                rw [hb] at hv
                                simp only [exceptBindOk,
                                  Except.ok.injEq] at hv
                                subst hv
                                rfl
                  simp only [allTag, List.all_cons, Bool.and_eq_true,
                    beq_iff_eq]
                  exact ⟨hvt, ih bs rest hr⟩

end Ari
namespace Ari

theorem arrayNumOpHomog (opName : String) (f : Rat → Rat → Rat)
    (a b res : Literal) (h : arrayNumOp opName f a b = .ok res) :
    allSameTag res.arr = true := by
  simp only [arrayNumOp] at h
  split at h
  · simp at h
  · split at h
    · simp only [Except.ok.injEq] at h
      subst h
      rfl
    · split at h
      · simp at h
      · split at h
        · cases hz : zipNumOp f a.arr b.arr with
          | error e => rw [hz] at h; simp at h
          | ok vs =>
              rw [hz] at h
              simp only [exceptBindOk, Except.ok.injEq] at h
              subst h
              exact allTagAllSame .Number _
                (by simpa [Literal.newArray, Literal.arr] using
                  zipNumOpHomog f a.arr b.arr vs hz)
        · simp at h
    · simp at h

theorem arrayDivOpHomog (a b res : Literal) (h : arrayDivOp a b = .ok res) :
    allSameTag res.arr = true := by
  simp only [arrayDivOp] at h
  split at h
  · simp at h
  · split at h
    · simp only [Except.ok.injEq] at h
      subst h
      rfl
    · split at h
      · simp at h
      · split at h
        · cases hz : zipDivide a.arr b.arr with
          | error e => rw [hz] at h; simp at h
          | ok vs =>
              rw [hz] at h
              simp only [exceptBindOk, Except.ok.injEq] at h
              subst h
              exact allTagAllSame .Number _
                (by simpa [Literal.newArray, Literal.arr] using
                  zipDivideHomog a.arr b.arr vs hz)
        · simp at h
    · simp at h

theorem arrayAddOpHomog (a b res : Literal) (h : arrayAddOp a b = .ok res) :
    allSameTag res.arr = true := by
  simp only [arrayAddOp] at h
  split at h
  · simp at h
  · split at h
    · simp only [Except.ok.injEq] at h
      subst h
      rfl
    · split at h
      · simp at h
      · rename_i mixed hmx
        split at h
        · cases hz : zipAdd mixed a.arr b.arr with
          | error e => rw [hz] at h; simp at h
          | ok vs =>
              rw [hz] at h
              simp only [exceptBindOk, Except.ok.injEq] at h
              subst h
              exact allTagAllSame (if mixed then .String else .Number) _
                (by simpa [Literal.newArray, Literal.arr] using
                  zipAddHomog mixed a.arr b.arr vs hz)
        · split at h
          · cases hz : zipAdd true a.arr b.arr with
            | error e => rw [hz] at h; simp at h
            | ok vs =>
                rw [hz] at h
                simp only [exceptBindOk, Except.ok.injEq] at h
                subst h
                exact allTagAllSame .String _
                  (by simpa [Literal.newArray, Literal.arr] using
                    zipAddHomog true a.arr b.arr vs hz)
          · simp at h
    · simp at h

end Ari
namespace Ari

theorem addLitNotArray (a b : Literal) (c : Bool) (v : Literal)
    (h : addLit a b c = .ok v) : v.tag ≠ .Array := by
  cases c with
  | true =>
      simp only [addLit] at h
      rw [if_pos trivial] at h
      simp only [Except.ok.injEq] at h
      subst h
      simp [Literal.stringLit, Literal.newValue, Literal.tag]
  | false =>
      simp only [addLit] at h
      rw [if_neg (by simp)] at h
      cases ha : stringToFloat a with
      | error e => rw [ha] at h; simp at h
      | ok av =>
          rw [ha] at h
          cases hb : stringToFloat b with
          | error e => rw [hb] at h; simp at h
          | ok bv =>
              rw [hb] at h
              simp only [exceptBindOk, Except.ok.injEq] at h
              subst h
              simp [Literal.number, Literal.newValue, Literal.tag]

theorem compareOpNotArray (a b : Literal) (f : Rat → Rat → Bool) (v : Literal)
    (h : compareOp a b f = .ok v) : v.tag ≠ .Array := by
  simp only [compareOp] at h
  split at h
  · simp at h
  · cases ha : stringToFloat a with
    | error e => rw [ha] at h; simp at h
    | ok av =>
        rw [ha] at h
        cases hb : stringToFloat b with
        | error e => rw [hb] at h; simp at h
        | ok bv =>
            rw [hb] at h
            simp only [exceptBindOk, Except.ok.injEq] at h
            subst h
            simp [Literal.boolLit, Literal.newValue, Literal.tag]

theorem evalBinaryHomog (op : TokenType) (a b res : Literal)
    (h : evalBinary op a b = .ok res) (harr : res.tag = .Array) :
    allSameTag res.arr = true := by
  cases op with
  | Minus =>
      simp only [evalBinary] at h
      split at h
      · simp at h
      · split at h
        · cases ha : stringToFloat a with
          | error e => rw [ha] at h; simp at h
          | ok av =>
              rw [ha] at h
              cases hb : stringToFloat b with
              | error e => rw [hb] at h; simp at h
              | ok bv =>
                  rw [hb] at h
                  simp only [exceptBindOk, Except.ok.injEq] at h
                  subst h
                  simp [Literal.number, Literal.newValue, Literal.tag] at harr
        · exact arrayNumOpHomog _ _ a b res h
  | Star =>
      simp only [evalBinary] at h
      split at h
      · simp at h
      · split at h
        · cases ha : stringToFloat a with
          | error e => rw [ha] at h; simp at h
          | ok av =>
              rw [ha] at h
              cases hb : stringToFloat b with
              | error e => rw [hb] at h; simp at h
              | ok bv =>
                  rw [hb] at h
                  simp only [exceptBindOk, Except.ok.injEq] at h
                  subst h
                  simp [Literal.number, Literal.newValue, Literal.tag] at harr
        · exact arrayNumOpHomog _ _ a b res h
  | Slash =>
      simp only [evalBinary] at h
      split at h
      · simp at h
      · split at h
        · cases ha : stringToFloat a with
          | error e => rw [ha] at h; simp at h
          | ok av =>
              rw [ha] at h
              cases hb : stringToFloat b with
              | error e => rw [hb] at h; simp at h
              | ok bv =>
                  rw [hb] at h
                  simp only [exceptBindOk] at h
                  split at h
                  · simp only [Except.ok.injEq] at h
                    subst h
                    simp [Literal.number, Literal.newValue,
                      Literal.tag] at harr
                  · simp at h
        · exact arrayDivOpHomog a b res h
  | Plus =>
      simp only [evalBinary] at h
      split at h
      · simp at h
      · split at h
        · exact absurd harr (addLitNotArray a b _ res h)
        · exact absurd harr (addLitNotArray a b true res h)
        · exact arrayAddOpHomog a b res h
        · simp at h
  | Greater =>
      simp only [evalBinary] at h
      exact absurd harr (compareOpNotArray a b _ res h)
  | GreaterEqual =>
      simp only [evalBinary] at h
      exact absurd harr (compareOpNotArray a b _ res h)
  | Less =>
      simp only [evalBinary] at h
      exact absurd harr (compareOpNotArray a b _ res h)
  | LessEqual =>
      simp only [evalBinary] at h
      exact absurd harr (compareOpNotArray a b _ res h)
  | BangEqual =>
      simp only [evalBinary] at h
      cases he : isEqual a b with
      | error e => rw [he] at h; simp at h
      | ok eq =>
          rw [he] at h
          simp only [exceptBindOk, Except.ok.injEq] at h
          subst h
          simp [Literal.boolLit, Literal.newValue, Literal.tag] at harr
  | EqualEqual =>
      simp only [evalBinary] at h
      cases he : isEqual a b with
      | error e => rw [he] at h; simp at h
      | ok eq =>
          rw [he] at h
          simp only [exceptBindOk, Except.ok.injEq] at h
          subst h
          simp [Literal.boolLit, Literal.newValue, Literal.tag] at harr
  | Bang => simp [evalBinary] at h
  | And => simp [evalBinary] at h
  | Or => simp [evalBinary] at h
  | NoneT => simp [evalBinary] at h

end Ari

namespace Ari

/-- C3 amended: every array-producing operation except `map` yields a
homogeneous Array — array literals (`ExprType::ArrayCreation`
enforces the element tags), `split` (all String), `repeat` (copies of
one value), `filter` over a homogeneous array (a sublist of it), and
the element-wise binary operators (uniformly-tagged results).  `map`
is the exception: it applies no check to the mapped function's
results, and the counterexample `claim3_map_heterogeneous_cex` shows
it returning a heterogeneous Array. -/
theorem claim3_homogeneity_amended :
    (∀ fuel (elems : List Expr) (env : EnvStack) (l : Literal)
        (env' : EnvStack),
      eval fuel (.expr (.arrayCreation elems)) env = .ok (.lit l, env') →
      allSameTag l.arr = true) ∧
    (∀ (args : List Literal) (l : Literal), splitNative args = .ok l →
      allSameTag l.arr = true) ∧
    (∀ (args : List Literal) (l : Literal), repeatNative args = .ok l →
      allSameTag l.arr = true) ∧
    (∀ fuel (source ff : Literal) (env : EnvStack) (l : Literal)
        (env' : EnvStack) (vt : LType),
      allTag vt source.arr = true →
      eval fuel (.callNat .Filter [source, ff]) env = .ok (.lit l, env') →
      allTag vt l.arr = true) ∧
    (∀ (op : TokenType) (a b res : Literal), evalBinary op a b = .ok res →
      res.tag = .Array → allSameTag res.arr = true) :=
  ⟨arrayCreationHomog, splitHomog, repeatHomog, filterHomog, evalBinaryHomog⟩

/-- Witness for C3: the amended theorem applied to a concrete array
literal, split, repeat, filter and element-wise operation. -/
theorem claim3_homogeneity_witness :
    allSameTag (Literal.newArray
      [Literal.number 1, Literal.number 2]).arr = true ∧
    allSameTag (Literal.newArray
      [Literal.stringLit "a", Literal.stringLit "b"]).arr = true ∧
    allSameTag (Literal.newArray
      [Literal.nullLit, Literal.nullLit]).arr = true ∧
    allTag .Null (Literal.newArray [Literal.nullLit]).arr = true ∧
    allSameTag (Literal.newArray []).arr = true :=
  ⟨claim3_homogeneity_amended.1 9
     [.literal (Literal.number 1), .literal (Literal.number 2)] [[]] _ [[]]
     rfl,
   claim3_homogeneity_amended.2.1
     [Literal.stringLit "a,b", Literal.stringLit ","] _
     (by with_unfolding_all rfl),
   claim3_homogeneity_amended.2.2.1 [Literal.nullLit, Literal.number 2] _ rfl,
   claim3_homogeneity_amended.2.2.2.1 32 (Literal.newArray [Literal.nullLit])
     (Literal.newFunction ex3FilterFunc)
     [[("p", Literal.newFunction ex3FilterFunc)]] _
     [[("p", Literal.newFunction ex3FilterFunc)]] .Null (by decide) rfl,
   claim3_homogeneity_amended.2.2.2.2 .Minus (Literal.newArray [])
     (Literal.newArray []) _ rfl rfl⟩

end Ari
